import Mathlib

/-!
Shallow embedding of the browser-pool manager of pramek008/link-preview
(src/utils/playwright_utils.py, class AdvancedPlaywrightManager, and the
scale_browsers endpoint of src/main.py), together with proofs about the
acquire/release protocol, the autoscaling policy, the idle reaper and the
statistics aggregator.

Modelling conventions: the asyncio event loop is single-threaded, so every
run of straight-line Python between two awaits is one atomic step; machine
state is explicit and passed through pure functions.  Timestamps are
naturals.  `active_tabs` is an integer because the code can in fact drive
it negative.  An operation that would block (semaphore with no free permit,
index out of range) is modelled with `Option`.  External engine handles
(Browser/BrowserContext/Page objects) carry no pool-relevant state beyond
object identity, modelled by the `id` field.
-/

namespace LinkPreview

/-- `BrowserInstance` dataclass (playwright_utils.py lines 11-19).  The
`semaphore` field is the number of free permits of
`asyncio.Semaphore(max_tabs_per_browser)`; `id` models Python object
identity (`list.remove` compares by identity for the embedded handles). -/
structure BrowserInstance where
  id : Nat
  semaphore : Nat
  created_at : Nat
  last_used : Nat
  active_tabs : Int
  total_requests : Nat
deriving DecidableEq

/-- The `self.stats` dictionary (lines 42-51). -/
structure Stats where
  total_requests : Nat
  active_tabs : Int
  browsers_created : Nat
  browsers_closed : Nat
  failed_requests : Nat
  successful_requests : Nat
  peak_active_tabs : Int
  peak_browsers : Nat
deriving DecidableEq

/-- State of an `AdvancedPlaywrightManager` (lines 21-51).  `playwright`
is whether `self.playwright is not None`; `cleanup_task` is whether the
`self.cleanup_task` attribute is set (truthy); `reaper_running` is whether
that task is alive (not cancelled); `reaper_starts` counts how many times
`asyncio.create_task(self._cleanup_idle_browsers())` has been executed. -/
structure Manager where
  playwright : Bool
  browsers : List BrowserInstance
  max_tabs_per_browser : Nat
  max_browsers : Nat
  min_browsers : Nat
  auto_scale : Bool
  browser_idle_timeout : Nat
  cleanup_task : Bool
  reaper_running : Bool
  reaper_starts : Nat
  stats : Stats
deriving DecidableEq

/-- A manager as built by `__init__` (lines 22-51): no playwright, empty
pool, zeroed stats, no cleanup task. -/
def mkManager (maxTabs maxB minB : Nat) (auto : Bool) (timeout : Nat) : Manager :=
  { playwright := false
    browsers := []
    max_tabs_per_browser := maxTabs
    max_browsers := maxB
    min_browsers := minB
    auto_scale := auto
    browser_idle_timeout := timeout
    cleanup_task := false
    reaper_running := false
    reaper_starts := 0
    stats :=
      { total_requests := 0
        active_tabs := 0
        browsers_created := 0
        browsers_closed := 0
        failed_requests := 0
        successful_requests := 0
        peak_active_tabs := 0
        peak_browsers := 0 } }

/-- `sum(b.active_tabs for b in self.browsers)` (lines 173, 202, 270). -/
def sumActive (bs : List BrowserInstance) : Int :=
  (bs.map (fun b => b.active_tabs)).sum

/-- `_create_browser_instance` (lines 84-124): launches an engine, builds a
fresh instance with a full semaphore and zero active tabs, appends it to
the pool, bumps `browsers_created` and the peak-pool-size counter. -/
def createBrowserInstance (m : Manager) (now : Nat) : Manager :=
  let inst : BrowserInstance :=
    { id := m.stats.browsers_created
      semaphore := m.max_tabs_per_browser
      created_at := now
      last_used := now
      active_tabs := 0
      total_requests := 0 }
  let browsers := m.browsers ++ [inst]
  { m with
    browsers := browsers
    stats :=
      { m.stats with
        browsers_created := m.stats.browsers_created + 1
        peak_browsers := max m.stats.peak_browsers browsers.length } }

/-- `initialize` (lines 69-82).  The whole body runs while holding
`self.lock`, so concurrent calls are serialized and the function is one
atomic state transform here.  If playwright is already started the body is
skipped; otherwise `min_browsers` instances are created and the reaper task
is started if `self.cleanup_task` is not yet set. -/
def initManager (m : Manager) (now : Nat) : Manager :=
  if m.playwright then m
  else
    let m1 := { m with playwright := true }
    let m2 := (fun s => createBrowserInstance s now)^[m.min_browsers] m1
    if m2.cleanup_task then m2
    else { m2 with cleanup_task := true, reaper_running := true,
                   reaper_starts := m2.reaper_starts + 1 }

/-- Result of `_get_available_browser` (lines 126-140), before any slot is
taken: either an existing instance (by pool index), a decision to create a
new instance (the autoscale branch), the least-loaded fallback, or the
`ValueError` that `min([])` would raise on an empty pool. -/
inductive Selection
  | existing (i : Nat)
  | scaleUp
  | leastLoaded (i : Nat)
  | noBrowser
deriving DecidableEq

/-- The scan loop of lines 129-131: index of the first instance with
`active_tabs < max_tabs_per_browser`. -/
def findAvailable (maxTabs : Nat) : List BrowserInstance → Option Nat
  | [] => none
  | b :: rest =>
    if b.active_tabs < (maxTabs : Int) then some 0
    else (findAvailable maxTabs rest).map (fun i => i + 1)

/-- `min(self.browsers, key=lambda b: b.active_tabs)` (line 140): Python's
`min` keeps the first element and replaces it only on a strictly smaller
key, so ties resolve to the earliest index. -/
def leastLoadedAux (bestIdx : Nat) (bestVal : Int) (cur : Nat) :
    List BrowserInstance → Nat
  | [] => bestIdx
  | b :: rest =>
    if b.active_tabs < bestVal then leastLoadedAux cur b.active_tabs (cur + 1) rest
    else leastLoadedAux bestIdx bestVal (cur + 1) rest

/-- `_get_available_browser` (lines 126-140) as a pure selection.  The
autoscale branch checks `self.auto_scale and len(self.browsers) <
self.max_browsers` before taking the lock; the creation itself is a
separate step (see `createBrowserInstance` and the race model below). -/
def getAvailableBrowser (m : Manager) : Selection :=
  match findAvailable m.max_tabs_per_browser m.browsers with
  | some i => Selection.existing i
  | none =>
    if m.auto_scale ∧ m.browsers.length < m.max_browsers then Selection.scaleUp
    else
      match m.browsers with
      | [] => Selection.noBrowser
      | b :: rest => Selection.leastLoaded (leastLoadedAux 0 b.active_tabs 1 rest)

/-- How one checked-out session ends: `setupFail` is an exception raised
inside the `try` before the stats update (e.g. `context.new_page()`
raising), `bodyFail` is the caller's body raising after `yield`, `ok` is
normal completion. -/
inductive SessionOutcome
  | setupFail
  | bodyFail
  | ok
deriving DecidableEq

/-- `await browser_instance.semaphore.acquire()` (line 153): consumes one
permit; `none` when the caller would block (no free permit) or the index
is stale. -/
def acquireSlot (m : Manager) (i : Nat) : Option Manager :=
  match m.browsers[i]? with
  | none => none
  | some b =>
    if b.semaphore = 0 then none
    else some { m with browsers := m.browsers.set i { b with semaphore := b.semaphore - 1 } }

/-- Lines 169-177, the bookkeeping run after `new_page()` succeeds and
before `yield`: bump the instance's `active_tabs`, `total_requests` and
`last_used`, the global `total_requests`, recompute the cached global
`active_tabs` as the sum over instances, and update its peak. -/
def checkoutBookkeeping (m : Manager) (i : Nat) (now : Nat) : Manager :=
  match m.browsers[i]? with
  | none => m
  | some b =>
    let b1 := { b with active_tabs := b.active_tabs + 1
                       total_requests := b.total_requests + 1
                       last_used := now }
    let browsers1 := m.browsers.set i b1
    let ga := sumActive browsers1
    { m with
      browsers := browsers1
      stats :=
        { m.stats with
          total_requests := m.stats.total_requests + 1
          active_tabs := ga
          peak_active_tabs := max m.stats.peak_active_tabs ga } }

/-- The exit path of `get_page` (lines 184-205): the success counter bump
of line 185 or the failure counter bump of line 189, then the `finally`
block, which always decrements `active_tabs`, releases the semaphore
permit and recomputes the cached global `active_tabs`.  It runs without
ever touching `self.lock`. -/
def releaseStep (m : Manager) (i : Nat) (success : Bool) : Manager :=
  match m.browsers[i]? with
  | none => m
  | some b =>
    let st1 :=
      if success then
        { m.stats with successful_requests := m.stats.successful_requests + 1 }
      else
        { m.stats with failed_requests := m.stats.failed_requests + 1 }
    let b2 := { b with active_tabs := b.active_tabs - 1, semaphore := b.semaphore + 1 }
    let browsers2 := m.browsers.set i b2
    { m with browsers := browsers2, stats := { st1 with active_tabs := sumActive browsers2 } }

/-- One full checked-out session on instance `i` (lines 150-205, after the
instance has been selected): acquire a permit, then depending on the
outcome run the checkout bookkeeping or skip it (an exception before line
169 skips the increments), and always run the release path.  Note that on
`setupFail` the `finally` decrement runs although the increment never did. -/
def runSession (m : Manager) (i : Nat) (o : SessionOutcome) (now : Nat) :
    Option Manager :=
  (acquireSlot m i).map (fun m1 =>
    match o with
    | SessionOutcome.setupFail => releaseStep m1 i false
    | SessionOutcome.ok => releaseStep (checkoutBookkeeping m1 i now) i true
    | SessionOutcome.bodyFail => releaseStep (checkoutBookkeeping m1 i now) i false)

/-- `get_page` end to end (lines 142-205): lazy initialization, instance
selection (creating a new instance when the autoscale branch is taken),
then one session with the given outcome. -/
def getPage (m0 : Manager) (o : SessionOutcome) (now : Nat) : Option Manager :=
  let m := initManager m0 now
  match getAvailableBrowser m with
  | Selection.existing i => runSession m i o now
  | Selection.scaleUp =>
    let m1 := createBrowserInstance m now
    runSession m1 (m1.browsers.length - 1) o now
  | Selection.leastLoaded i => runSession m i o now
  | Selection.noBrowser => none

/-- The eviction condition of lines 221-223:
`idle_time > browser_idle_timeout and active_tabs == 0`. -/
def isIdleRemovable (b : BrowserInstance) (now timeout : Nat) : Bool :=
  decide (now - b.last_used > timeout) && decide (b.active_tabs = 0)

/-- The marking loop of lines 217-224.  `poolLen` is `len(self.browsers)`,
which is constant throughout the loop because removal only happens in the
second loop; the `break` guard of line 218 therefore sees the same length
at every iteration. -/
def markLoop (poolLen minB now timeout : Nat) :
    List BrowserInstance → List BrowserInstance
  | [] => []
  | b :: rest =>
    if poolLen ≤ minB then []
    else if isIdleRemovable b now timeout then
      b :: markLoop poolLen minB now timeout rest
    else markLoop poolLen minB now timeout rest

/-- One tick of `_cleanup_idle_browsers` (lines 209-237), after the
60-second sleep, with the lock held: mark, then close and remove every
marked instance and count it in `browsers_closed`. -/
def cleanupTick (m : Manager) (now : Nat) : Manager :=
  let marked := markLoop m.browsers.length m.min_browsers now m.browser_idle_timeout m.browsers
  { m with
    browsers := marked.foldl (fun bs b => bs.erase b) m.browsers
    stats := { m.stats with browsers_closed := m.stats.browsers_closed + marked.length } }

/-- `close` (lines 242-266): cancel the reaper task (the attribute
`self.cleanup_task` is left set), close and clear every instance, stop
playwright.  `browsers_closed` is not incremented on this path. -/
def closeManager (m : Manager) : Manager :=
  { m with reaper_running := false, browsers := [], playwright := false }

/-- Result tag of the `/admin/scale-browsers` endpoint (main.py 81-128). -/
inductive ScaleAction
  | errorBelowMin
  | errorAboveMax
  | scaledUp
  | scaledDown
  | noChange
deriving DecidableEq

/-- `scale_browsers` (main.py lines 81-128).  A target below
`min_browsers` or above `max_browsers` is rejected before any mutation.
Scale-up creates `target - current` instances under the lock.  Scale-down
walks `browsers[target:]`, collecting only instances with
`active_tabs == 0`, and removes exactly those. -/
def scaleBrowsers (m : Manager) (target : Int) (now : Nat) : Manager × ScaleAction :=
  if target < (m.min_browsers : Int) then (m, ScaleAction.errorBelowMin)
  else if target > (m.max_browsers : Int) then (m, ScaleAction.errorAboveMax)
  else
    let current := m.browsers.length
    if target > (current : Int) then
      ((fun s => createBrowserInstance s now)^[(target - current).toNat] m,
        ScaleAction.scaledUp)
    else if target < (current : Int) then
      let marked := (m.browsers.drop target.toNat).filter
        (fun b => decide (b.active_tabs = 0))
      ({ m with browsers := marked.foldl (fun bs b => bs.erase b) m.browsers },
        ScaleAction.scaledDown)
    else (m, ScaleAction.noChange)

/-- `get_stats` (lines 268-291) restricted to the pool-relevant fields.
`success_rate` and `capacity_used_percent` are kept as exact rationals;
the source additionally rounds them to two decimals for display. -/
structure StatsView where
  total_requests : Nat
  active_browsers : Nat
  active_tabs : Int
  total_capacity : Nat
  successful_requests : Nat
  failed_requests : Nat
  success_rate : ℚ
deriving DecidableEq

/-- `get_stats` (lines 268-291): the returned dictionary spreads
`self.stats` and then overwrites `active_tabs` with the freshly recomputed
sum over live instances, so the cached counter never reaches the caller. -/
def getStats (m : Manager) : StatsView :=
  let currentActive := sumActive m.browsers
  { total_requests := m.stats.total_requests
    active_browsers := m.browsers.length
    active_tabs := currentActive
    total_capacity := m.browsers.length * m.max_tabs_per_browser
    successful_requests := m.stats.successful_requests
    failed_requests := m.stats.failed_requests
    success_rate :=
      if m.stats.total_requests > 0 then
        (m.stats.successful_requests : ℚ) / (m.stats.total_requests : ℚ) * 100
      else 0 }

/-!  Interleaving model for the autoscale branch of `_get_available_browser`.

The scan of lines 129-131 plus the size check of line 134 run synchronously
(no await), so together they form one atomic step; the instance creation of
lines 136-137 runs under `self.lock` and is a second atomic step.  Between
the two the task suspends (awaiting the lock and the engine launch), so
another task can run its own check against the still-unchanged pool. -/

/-- Where one task is inside `_get_available_browser` (lines 126-140). -/
inductive AcquirePhase
  | ready
  | passedCheck
  | fellBack
  | created
deriving DecidableEq

/-- Two tasks racing through the autoscale branch over one shared manager. -/
structure RaceState where
  taskA : AcquirePhase
  taskB : AcquirePhase
  mgr : Manager
deriving DecidableEq

/-- One interleaving step: either task runs its scan-and-check (line 129-134,
atomic, lock-free) or, having passed the check, its locked creation
(lines 136-137). -/
inductive RaceStep : RaceState → RaceState → Prop
  | checkPassA (s : RaceState) :
      s.taskA = AcquirePhase.ready →
      findAvailable s.mgr.max_tabs_per_browser s.mgr.browsers = none →
      s.mgr.auto_scale = true →
      s.mgr.browsers.length < s.mgr.max_browsers →
      RaceStep s { s with taskA := AcquirePhase.passedCheck }
  | checkFailA (s : RaceState) :
      s.taskA = AcquirePhase.ready →
      findAvailable s.mgr.max_tabs_per_browser s.mgr.browsers = none →
      ¬ (s.mgr.auto_scale = true ∧ s.mgr.browsers.length < s.mgr.max_browsers) →
      RaceStep s { s with taskA := AcquirePhase.fellBack }
  | createA (s : RaceState) (now : Nat) :
      s.taskA = AcquirePhase.passedCheck →
      RaceStep s
        { s with taskA := AcquirePhase.created, mgr := createBrowserInstance s.mgr now }
  | checkPassB (s : RaceState) :
      s.taskB = AcquirePhase.ready →
      findAvailable s.mgr.max_tabs_per_browser s.mgr.browsers = none →
      s.mgr.auto_scale = true →
      s.mgr.browsers.length < s.mgr.max_browsers →
      RaceStep s { s with taskB := AcquirePhase.passedCheck }
  | checkFailB (s : RaceState) :
      s.taskB = AcquirePhase.ready →
      findAvailable s.mgr.max_tabs_per_browser s.mgr.browsers = none →
      ¬ (s.mgr.auto_scale = true ∧ s.mgr.browsers.length < s.mgr.max_browsers) →
      RaceStep s { s with taskB := AcquirePhase.fellBack }
  | createB (s : RaceState) (now : Nat) :
      s.taskB = AcquirePhase.passedCheck →
      RaceStep s
        { s with taskB := AcquirePhase.created, mgr := createBrowserInstance s.mgr now }

/-- The public operations that can hit the manager after construction, each
one completed run.  A `reaperTick` only does anything while the reaper task
is alive; blocked or out-of-range sessions leave the state unchanged. -/
inductive Op
  | start (now : Nat)
  | page (o : SessionOutcome) (now : Nat)
  | session (i : Nat) (o : SessionOutcome) (now : Nat)
  | reaperTick (now : Nat)
  | scale (target : Int) (now : Nat)
  | shutdown
deriving DecidableEq

def applyOp (m : Manager) : Op → Manager
  | Op.start now => initManager m now
  | Op.page o now => (getPage m o now).getD m
  | Op.session i o now => (runSession m i o now).getD m
  | Op.reaperTick now => if m.reaper_running then cleanupTick m now else m
  | Op.scale t now => (scaleBrowsers m t now).1
  | Op.shutdown => closeManager m

def runOps (m : Manager) : List Op → Manager
  | [] => m
  | op :: rest => runOps (applyOp m op) rest

/-- A quiescent pool: initialized, nonempty, every instance with no active
session and a full semaphore.  This is the state between two sequential
sessions. -/
def Quiescent (m : Manager) : Prop :=
  m.playwright = true ∧ m.max_tabs_per_browser ≠ 0 ∧ m.browsers ≠ [] ∧
    ∀ c ∈ m.browsers, c.active_tabs = 0 ∧ c.semaphore = m.max_tabs_per_browser

/-- A sequence of sessions through `get_page`, each either completing
normally (`true`) or raising in the body (`false`).  Timestamps do not
affect the counters and are fixed at 0. -/
def runBodies (m : Manager) : List Bool → Option Manager
  | [] => some m
  | s :: rest =>
    (getPage m (if s then SessionOutcome.ok else SessionOutcome.bodyFail) 0).bind
      (fun m1 => runBodies m1 rest)

/-!  Concrete states used as inputs for the counterexamples and witnesses.
The configuration is the one of main.py lines 24-30: 5 tabs per browser,
at most 3 browsers, at least 1, autoscale on, 300 s idle timeout. -/

/-- The manager of main.py lines 24-30, freshly constructed. -/
def mainManager : Manager := mkManager 5 3 1 true 300

/-- `mainManager` right after `initialize()` at time 0. -/
def mgrInit : Manager := initManager mainManager 0

/-- A saturated instance: all 5 permits taken, 5 active tabs. -/
def fullInstance (n : Nat) : BrowserInstance :=
  { id := n, semaphore := 0, created_at := 0, last_used := 0,
    active_tabs := 5, total_requests := 5 }

/-- An idle instance: no active tabs, full semaphore, last used at time 0. -/
def idleInstance (n : Nat) : BrowserInstance :=
  { id := n, semaphore := 5, created_at := 0, last_used := 0,
    active_tabs := 0, total_requests := 3 }

/-- A pool of two saturated instances under the main.py configuration, as
seen by two concurrent `get_page` callers. -/
def mgrTwoFull : Manager :=
  { mainManager with
      playwright := true, cleanup_task := true, reaper_running := true,
      reaper_starts := 1,
      browsers := [fullInstance 0, fullInstance 1],
      stats := { mainManager.stats with
                   total_requests := 10, active_tabs := 10,
                   browsers_created := 2, peak_active_tabs := 10,
                   peak_browsers := 2 } }

/-- Both racing tasks about to run `_get_available_browser`. -/
def raceInit : RaceState :=
  { taskA := AcquirePhase.ready, taskB := AcquirePhase.ready, mgr := mgrTwoFull }

/-- Race trace, step 1: task A passes the unlocked size check. -/
def raceS1 : RaceState := { raceInit with taskA := AcquirePhase.passedCheck }

/-- Race trace, step 2: task B passes the same check against the still
two-element pool. -/
def raceS2 : RaceState := { raceS1 with taskB := AcquirePhase.passedCheck }

/-- Race trace, step 3: task A creates its instance under the lock. -/
def raceS3 : RaceState :=
  { raceS2 with taskA := AcquirePhase.created, mgr := createBrowserInstance raceS2.mgr 1 }

/-- Race trace, step 4: task B creates a fourth instance under the lock. -/
def raceS4 : RaceState :=
  { raceS3 with taskB := AcquirePhase.created, mgr := createBrowserInstance raceS3.mgr 2 }

/-- Three idle instances with `min_browsers = 1`, every one of them past
the idle timeout at time 1000. -/
def mgrThreeIdle : Manager :=
  { mainManager with
      playwright := true, cleanup_task := true, reaper_running := true,
      reaper_starts := 1,
      browsers := [idleInstance 0, idleInstance 1, idleInstance 2],
      stats := { mainManager.stats with browsers_created := 3, peak_browsers := 3 } }

/-- An instance with one checked-out session in flight: one permit taken,
one active tab, one served request, last used at time 5. -/
def checkedOutInstance : BrowserInstance :=
  { id := 0, semaphore := 4, created_at := 0, last_used := 5,
    active_tabs := 1, total_requests := 1 }

/-- A pool with one checked-out session in flight: instance 0 holds one
permit and one active tab (the state right after `checkoutBookkeeping`). -/
def mgrCheckedOut : Manager :=
  { mainManager with
      playwright := true, cleanup_task := true, reaper_running := true,
      reaper_starts := 1,
      browsers := [checkedOutInstance],
      stats := { mainManager.stats with
                   total_requests := 1, active_tabs := 1,
                   browsers_created := 1, peak_active_tabs := 1,
                   peak_browsers := 1 } }

/-- `mgrInit` after one successful session at time 1. -/
def mgrAfterOk : Manager := (runSession mgrInit 0 SessionOutcome.ok 1).getD mgrInit

/-- A pool with one busy and two idle instances under the main
configuration, for the manual-scale witness. -/
def mgrMixed : Manager :=
  { mainManager with
      playwright := true, cleanup_task := true, reaper_running := true,
      reaper_starts := 1,
      browsers := [idleInstance 0,
                   { id := 1, semaphore := 4, created_at := 0, last_used := 0,
                     active_tabs := 1, total_requests := 2 },
                   idleInstance 2],
      stats := { mainManager.stats with browsers_created := 3, peak_browsers := 3 } }

/-- A saturated three-instance pool with distinct loads, exercising the
least-loaded fallback (autoscale off). -/
def mgrSaturated : Manager :=
  { mkManager 1 3 1 false 300 with
      playwright := true, cleanup_task := true, reaper_running := true,
      reaper_starts := 1,
      browsers := [{ id := 0, semaphore := 0, created_at := 0, last_used := 0,
                     active_tabs := 2, total_requests := 2 },
                   { id := 1, semaphore := 0, created_at := 0, last_used := 0,
                     active_tabs := 1, total_requests := 1 },
                   { id := 2, semaphore := 0, created_at := 0, last_used := 0,
                     active_tabs := 1, total_requests := 1 }],
      stats := { mainManager.stats with browsers_created := 3, peak_browsers := 3 } }

/-!  ## Theorems -/

/-!  ### Helper lemmas on the list and step primitives -/

lemma getElem?_set_self_of_lt (l : List BrowserInstance) (i : Nat) (a : BrowserInstance)
    (h : i < l.length) : (l.set i a)[i]? = some a := by
  simp [List.getElem?_set, h]

lemma lt_length_of_getElem? {l : List BrowserInstance} {i : Nat} {a : BrowserInstance}
    (h : l[i]? = some a) : i < l.length := by
  by_contra hc
  rw [List.getElem?_eq_none (Nat.le_of_not_lt hc)] at h
  exact Option.noConfusion h

lemma acquireSlot_eq {m : Manager} {i : Nat} {b : BrowserInstance}
    (hb : m.browsers[i]? = some b) (hs : b.semaphore ≠ 0) :
    acquireSlot m i =
      some { m with browsers := m.browsers.set i { b with semaphore := b.semaphore - 1 } } := by
  simp [acquireSlot, hb, hs]

lemma releaseStep_browsers {m : Manager} {i : Nat} {b : BrowserInstance}
    (hb : m.browsers[i]? = some b) (success : Bool) :
    (releaseStep m i success).browsers =
      m.browsers.set i
        { b with active_tabs := b.active_tabs - 1, semaphore := b.semaphore + 1 } := by
  simp [releaseStep, hb]

lemma checkoutBookkeeping_browsers {m : Manager} {i : Nat} {b : BrowserInstance}
    (hb : m.browsers[i]? = some b) (now : Nat) :
    (checkoutBookkeeping m i now).browsers =
      m.browsers.set i
        { b with active_tabs := b.active_tabs + 1, total_requests := b.total_requests + 1,
                 last_used := now } := by
  simp [checkoutBookkeeping, hb]

/-- C1: the claim says `0 ≤ active_tabs ≤ max_tabs_per_browser` holds for
every instance at all times, including when an error is raised during page
creation inside `get_page`.  The code violates the lower bound: when
`context.new_page()` raises (outcome `setupFail`), the increment of line
169 never runs, but the `finally` block of lines 192-205 still decrements
`active_tabs`, driving the freshly initialized instance to −1 and the
global recomputed counter with it. -/
theorem setup_failure_drives_active_tabs_negative :
    (runSession mgrInit 0 SessionOutcome.setupFail 7).map
        (fun m => m.browsers.map (fun b => b.active_tabs)) = some [-1] ∧
    (runSession mgrInit 0 SessionOutcome.setupFail 7).map
        (fun m => m.stats.active_tabs) = some (-1) ∧
    (runSession mgrInit 0 SessionOutcome.setupFail 7).map
        (fun m => decide (sumActive m.browsers < 0)) = some true := by
  decide

/-- C2: the claim says autoscaling never grows the pool past
`max_browsers`, even for concurrent acquires that both find every instance
full.  Because the size check of line 134 runs before the lock is taken
and is not re-checked inside it, two tasks that both scan a full
two-instance pool (with `max_browsers = 3`) both pass the check and each
creates an instance, so the pool reaches 4 > 3. -/
theorem autoscale_race_exceeds_max_browsers :
    ∃ s : RaceState,
      Relation.ReflTransGen RaceStep raceInit s ∧
      s.mgr.max_browsers = 3 ∧ s.mgr.browsers.length = 4 := by
  refine ⟨raceS4, ?_, by decide, by decide⟩
  exact Relation.ReflTransGen.head
    (RaceStep.checkPassA raceInit (by decide) (by decide) (by decide) (by decide))
    (Relation.ReflTransGen.head
      (RaceStep.checkPassB raceS1 (by decide) (by decide) (by decide) (by decide))
      (Relation.ReflTransGen.head
        (RaceStep.createA raceS2 1 (by decide))
        (Relation.ReflTransGen.single (RaceStep.createB raceS3 2 (by decide)))))

/-- C3: the claim says a reaper tick never leaves the pool with fewer than
`min_browsers` instances, no matter how many instances are idle in the
same tick.  The `break` guard of line 218 tests `len(self.browsers)`,
which is unchanged while marking (removal happens only in the second
loop), so with three idle-past-timeout instances and `min_browsers = 1`
one tick marks and removes all three, leaving an empty pool. -/
theorem reaper_tick_empties_pool_below_min :
    mgrThreeIdle.min_browsers = 1 ∧
    mgrThreeIdle.browsers.length = 3 ∧
    (∀ b ∈ mgrThreeIdle.browsers,
        b.active_tabs = 0 ∧ 1000 - b.last_used > mgrThreeIdle.browser_idle_timeout) ∧
    (cleanupTick mgrThreeIdle 1000).browsers.length = 0 ∧
    (cleanupTick mgrThreeIdle 1000).stats.browsers_closed = 3 := by
  decide

/-- C4: for every exit path of a checked-out session — normal completion
(`ok`), an exception in the body (`bodyFail`), or an exception during page
setup, which also covers cancellation of the caller since the `finally`
block runs on `CancelledError` too — the release path runs exactly once:
the semaphore permit taken at admission is restored and the increments are
undone, so the instance ends with its original permit count and (on the
paths where the increment ran) its original `active_tabs`, and an
immediate subsequent acquire on the same instance does not block. -/
theorem release_runs_on_every_exit_path
    (m : Manager) (i : Nat) (o : SessionOutcome) (now : Nat) (m' : Manager)
    (h : runSession m i o now = some m') :
    (∃ b b2, m.browsers[i]? = some b ∧ m'.browsers[i]? = some b2 ∧
       b2.semaphore = b.semaphore ∧
       (o ≠ SessionOutcome.setupFail → b2.active_tabs = b.active_tabs)) ∧
    (∀ o2 now2, (runSession m' i o2 now2).isSome = true) := by
  rcases hb : m.browsers[i]? with _ | b
  · simp [runSession, acquireSlot, hb] at h
  · have hlen : i < m.browsers.length := lt_length_of_getElem? hb
    by_cases hs : b.semaphore = 0
    · simp [runSession, acquireSlot, hb, hs] at h
    · have hacq := acquireSlot_eq hb hs
      have hb1 :
          ({ m with browsers := m.browsers.set i { b with semaphore := b.semaphore - 1 } }
            : Manager).browsers[i]? = some { b with semaphore := b.semaphore - 1 } :=
        getElem?_set_self_of_lt _ _ _ hlen
      cases o with
      | setupFail =>
        simp only [runSession, hacq, Option.map_some'] at h
        have hbr := releaseStep_browsers hb1 false
        rw [Option.some.inj h] at hbr
        have hb2 : m'.browsers[i]? =
            some { b with semaphore := b.semaphore - 1 + 1,
                          active_tabs := b.active_tabs - 1 } := by
          rw [hbr]
          exact getElem?_set_self_of_lt _ _ _ (by simpa using hlen)
        refine ⟨⟨b, { b with semaphore := b.semaphore - 1 + 1,
                             active_tabs := b.active_tabs - 1 },
                 rfl, hb2, by simp; omega, fun hne => absurd rfl hne⟩, ?_⟩
        intro o2 now2
        simp [runSession, acquireSlot, hb2]
      | ok =>
        simp only [runSession, hacq, Option.map_some'] at h
        have hbc := checkoutBookkeeping_browsers hb1 now
        have hb1c :
            (checkoutBookkeeping
              { m with browsers := m.browsers.set i { b with semaphore := b.semaphore - 1 } }
              i now).browsers[i]? =
            some { b with semaphore := b.semaphore - 1, active_tabs := b.active_tabs + 1,
                          total_requests := b.total_requests + 1, last_used := now } := by
          rw [hbc]
          exact getElem?_set_self_of_lt _ _ _ (by simpa using hlen)
        have hbr := releaseStep_browsers hb1c true
        rw [Option.some.inj h] at hbr
        have hb2 : m'.browsers[i]? =
            some { b with semaphore := b.semaphore - 1 + 1,
                          active_tabs := b.active_tabs + 1 - 1,
                          total_requests := b.total_requests + 1, last_used := now } := by
          rw [hbr]
          refine getElem?_set_self_of_lt _ _ _ ?_
          rw [hbc]
          simpa using hlen
        refine ⟨⟨b, { b with semaphore := b.semaphore - 1 + 1,
                             active_tabs := b.active_tabs + 1 - 1,
                             total_requests := b.total_requests + 1, last_used := now },
                 rfl, hb2, by simp; omega, fun _ => by simp⟩, ?_⟩
        intro o2 now2
        simp [runSession, acquireSlot, hb2]
      | bodyFail =>
        simp only [runSession, hacq, Option.map_some'] at h
        have hbc := checkoutBookkeeping_browsers hb1 now
        have hb1c :
            (checkoutBookkeeping
              { m with browsers := m.browsers.set i { b with semaphore := b.semaphore - 1 } }
              i now).browsers[i]? =
            some { b with semaphore := b.semaphore - 1, active_tabs := b.active_tabs + 1,
                          total_requests := b.total_requests + 1, last_used := now } := by
          rw [hbc]
          exact getElem?_set_self_of_lt _ _ _ (by simpa using hlen)
        have hbr := releaseStep_browsers hb1c false
        rw [Option.some.inj h] at hbr
        have hb2 : m'.browsers[i]? =
            some { b with semaphore := b.semaphore - 1 + 1,
                          active_tabs := b.active_tabs + 1 - 1,
                          total_requests := b.total_requests + 1, last_used := now } := by
          rw [hbr]
          refine getElem?_set_self_of_lt _ _ _ ?_
          rw [hbc]
          simpa using hlen
        refine ⟨⟨b, { b with semaphore := b.semaphore - 1 + 1,
                             active_tabs := b.active_tabs + 1 - 1,
                             total_requests := b.total_requests + 1, last_used := now },
                 rfl, hb2, by simp; omega, fun _ => by simp⟩, ?_⟩
        intro o2 now2
        simp [runSession, acquireSlot, hb2]

/-- Witness for `release_runs_on_every_exit_path`: one successful session
on the freshly initialized main-configuration pool. -/
theorem release_runs_on_every_exit_path_witness :
    (∃ b b2, mgrInit.browsers[0]? = some b ∧ mgrAfterOk.browsers[0]? = some b2 ∧
       b2.semaphore = b.semaphore ∧
       (SessionOutcome.ok ≠ SessionOutcome.setupFail → b2.active_tabs = b.active_tabs)) ∧
    (∀ o2 now2, (runSession mgrAfterOk 0 o2 now2).isSome = true) :=
  release_runs_on_every_exit_path mgrInit 0 SessionOutcome.ok 1 mgrAfterOk (by decide)

/-- C5 counterexample: the claim says the release of a checked-out session
increments the instance's `total_served` (`total_requests`) and updates its
`last_used_at`.  On a pool with one in-flight session, the release path
leaves both fields exactly as they were: the increments of lines 170-171
happen at checkout, not at release, and the release path takes no
timestamp at all. -/
theorem release_omits_served_and_last_used_updates :
    (releaseStep mgrCheckedOut 0 true).browsers.map (fun b => b.total_requests) = [1] ∧
    mgrCheckedOut.browsers.map (fun b => b.total_requests) = [1] ∧
    ¬ ((releaseStep mgrCheckedOut 0 true).browsers.map (fun b => b.total_requests) = [2]) ∧
    (releaseStep mgrCheckedOut 0 true).browsers.map (fun b => b.last_used) =
      mgrCheckedOut.browsers.map (fun b => b.last_used) := by
  decide

/-- C5 (amended): the release path decrements the instance's
`active_tabs`, releases the semaphore permit, recomputes the cached global
active counter as the sum over instances, and bumps the global
success/failure counter according to whether the body raised; the
instance's `total_requests` and `last_used` are untouched by release —
they are updated at checkout time, together with the global
`total_requests` — and none of this holds the pool-wide lock. -/
theorem release_and_checkout_bookkeeping
    (m : Manager) (i : Nat) (b : BrowserInstance) (success : Bool) (now : Nat)
    (hb : m.browsers[i]? = some b) :
    (∃ b2, (releaseStep m i success).browsers[i]? = some b2 ∧
       b2.active_tabs = b.active_tabs - 1 ∧
       b2.semaphore = b.semaphore + 1 ∧
       b2.total_requests = b.total_requests ∧
       b2.last_used = b.last_used) ∧
    (releaseStep m i success).stats.active_tabs =
      sumActive (releaseStep m i success).browsers ∧
    (releaseStep m i success).stats.successful_requests =
      m.stats.successful_requests + (if success then 1 else 0) ∧
    (releaseStep m i success).stats.failed_requests =
      m.stats.failed_requests + (if success then 0 else 1) ∧
    (∃ b1, (checkoutBookkeeping m i now).browsers[i]? = some b1 ∧
       b1.active_tabs = b.active_tabs + 1 ∧
       b1.total_requests = b.total_requests + 1 ∧
       b1.last_used = now) ∧
    (checkoutBookkeeping m i now).stats.total_requests =
      m.stats.total_requests + 1 := by
  have hlen : i < m.browsers.length := lt_length_of_getElem? hb
  refine ⟨⟨{ b with active_tabs := b.active_tabs - 1, semaphore := b.semaphore + 1 },
           ?_, rfl, rfl, rfl, rfl⟩, ?_, ?_, ?_,
          ⟨{ b with active_tabs := b.active_tabs + 1,
                    total_requests := b.total_requests + 1, last_used := now },
           ?_, rfl, rfl, rfl⟩, ?_⟩
  · rw [releaseStep_browsers hb success]
    exact getElem?_set_self_of_lt _ _ _ hlen
  · simp [releaseStep, hb]
  · cases success <;> simp [releaseStep, hb]
  · cases success <;> simp [releaseStep, hb]
  · rw [checkoutBookkeeping_browsers hb now]
    exact getElem?_set_self_of_lt _ _ _ hlen
  · simp [checkoutBookkeeping, hb]

/-- Witness for `release_and_checkout_bookkeeping` at the in-flight pool,
a successful body, release-time clock 9. -/
theorem release_and_checkout_bookkeeping_witness :
    (∃ b2, (releaseStep mgrCheckedOut 0 true).browsers[0]? = some b2 ∧
       b2.active_tabs = checkedOutInstance.active_tabs - 1 ∧
       b2.semaphore = checkedOutInstance.semaphore + 1 ∧
       b2.total_requests = checkedOutInstance.total_requests ∧
       b2.last_used = checkedOutInstance.last_used) ∧
    (releaseStep mgrCheckedOut 0 true).stats.active_tabs =
      sumActive (releaseStep mgrCheckedOut 0 true).browsers ∧
    (releaseStep mgrCheckedOut 0 true).stats.successful_requests =
      mgrCheckedOut.stats.successful_requests + (if true then 1 else 0) ∧
    (releaseStep mgrCheckedOut 0 true).stats.failed_requests =
      mgrCheckedOut.stats.failed_requests + (if true then 0 else 1) ∧
    (∃ b1, (checkoutBookkeeping mgrCheckedOut 0 9).browsers[0]? = some b1 ∧
       b1.active_tabs = checkedOutInstance.active_tabs + 1 ∧
       b1.total_requests = checkedOutInstance.total_requests + 1 ∧
       b1.last_used = 9) ∧
    (checkoutBookkeeping mgrCheckedOut 0 9).stats.total_requests =
      mgrCheckedOut.stats.total_requests + 1 :=
  release_and_checkout_bookkeeping mgrCheckedOut 0 checkedOutInstance true 9 (by decide)

lemma forall_lt_succ_cons {P : BrowserInstance → Prop} (b : BrowserInstance)
    (rest : List BrowserInstance) (k : Nat) :
    (∀ j, j < k + 1 → ∀ c, (b :: rest)[j]? = some c → P c) ↔
      (P b ∧ ∀ j, j < k → ∀ c, rest[j]? = some c → P c) := by
  constructor
  · intro h
    refine ⟨h 0 (Nat.succ_pos k) b (by simp), fun j hj c hc => ?_⟩
    exact h (j + 1) (Nat.succ_lt_succ hj) c (by simpa using hc)
  · rintro ⟨hpb, h⟩ j hj c hc
    cases j with
    | zero =>
      rw [List.getElem?_cons_zero] at hc
      exact Option.some.inj hc ▸ hpb
    | succ j =>
      rw [List.getElem?_cons_succ] at hc
      exact h j (Nat.lt_of_succ_lt_succ hj) c hc

lemma findAvailable_none_iff (maxTabs : Nat) (bs : List BrowserInstance) :
    findAvailable maxTabs bs = none ↔
      ∀ c ∈ bs, (maxTabs : Int) ≤ c.active_tabs := by
  induction bs with
  | nil => simp [findAvailable]
  | cons b rest ih =>
    by_cases hb : b.active_tabs < (maxTabs : Int)
    · simp only [findAvailable, hb, if_true]
      constructor
      · intro h; exact Option.noConfusion h
      · intro h; exact absurd (h b (List.mem_cons_self b rest)) (not_le.mpr hb)
    · simp [findAvailable, hb, ih, not_lt.mp hb]

lemma findAvailable_some_iff (maxTabs : Nat) (bs : List BrowserInstance) (i : Nat) :
    findAvailable maxTabs bs = some i ↔
      ∃ b, bs[i]? = some b ∧ b.active_tabs < (maxTabs : Int) ∧
        ∀ j, j < i → ∀ c, bs[j]? = some c → (maxTabs : Int) ≤ c.active_tabs := by
  induction bs generalizing i with
  | nil => simp [findAvailable]
  | cons b rest ih =>
    by_cases hb : b.active_tabs < (maxTabs : Int)
    · cases i with
      | zero => simp [findAvailable, hb]
      | succ k =>
        simp only [findAvailable, hb, if_true]
        constructor
        · intro h; exact absurd (Option.some.inj h) (Nat.succ_ne_zero k).symm
        · rintro ⟨c, hc, hcl, hall⟩
          exact absurd (hall 0 (Nat.succ_pos k) b (by simp)) (not_le.mpr hb)
    · cases i with
      | zero =>
        simp only [findAvailable, hb, if_false]
        constructor
        · intro h
          rcases Option.map_eq_some'.mp h with ⟨k, _, hk⟩
          exact absurd hk (Nat.succ_ne_zero k)
        · rintro ⟨c, hc, hcl, _⟩
          rw [List.getElem?_cons_zero] at hc
          exact absurd (Option.some.inj hc ▸ hcl) hb
      | succ k =>
        simp only [findAvailable, hb, if_false]
        constructor
        · intro h
          rcases Option.map_eq_some'.mp h with ⟨k2, hk2, hkeq⟩
          have hkk : k2 = k := by omega
          rw [hkk] at hk2
          rcases (ih k).mp hk2 with ⟨c, hc, hcl, hall⟩
          refine ⟨c, by simpa using hc, hcl, ?_⟩
          exact (forall_lt_succ_cons b rest k).mpr ⟨not_lt.mp hb, hall⟩
        · rintro ⟨c, hc, hcl, hall⟩
          rw [List.getElem?_cons_succ] at hc
          have hall2 := ((forall_lt_succ_cons b rest k).mp hall).2
          have : findAvailable maxTabs rest = some k := (ih k).mpr ⟨c, hc, hcl, hall2⟩
          rw [this]
          rfl

lemma leastLoadedAux_spec (rest : List BrowserInstance) :
    ∀ (bs : List BrowserInstance) (bestIdx cur : Nat) (bestVal : Int),
      bs.drop cur = rest →
      bestIdx < cur →
      (∃ bb, bs[bestIdx]? = some bb ∧ bb.active_tabs = bestVal) →
      (∀ k, k < cur → ∀ c, bs[k]? = some c → bestVal ≤ c.active_tabs) →
      (∀ k, k < bestIdx → ∀ c, bs[k]? = some c → bestVal < c.active_tabs) →
      ∃ b, bs[leastLoadedAux bestIdx bestVal cur rest]? = some b ∧
        (∀ c ∈ bs, b.active_tabs ≤ c.active_tabs) ∧
        (∀ j, j < leastLoadedAux bestIdx bestVal cur rest →
          ∀ c, bs[j]? = some c → b.active_tabs < c.active_tabs) := by
  induction rest with
  | nil =>
    rintro bs bestIdx cur bestVal hdrop hlt ⟨bb, hbb, hbbv⟩ hle hstrict
    have hcur : bs.length ≤ cur := List.drop_eq_nil_iff.mp hdrop
    refine ⟨bb, by simpa [leastLoadedAux] using hbb, ?_, ?_⟩
    · intro c hc
      rcases List.getElem_of_mem hc with ⟨k, hk, hkc⟩
      have hv : bestVal ≤ c.active_tabs := by
        refine hle k (lt_of_lt_of_le hk hcur) c ?_
        rw [List.getElem?_eq_getElem hk, hkc]
      omega
    · intro j hj c hc
      have hv : bestVal < c.active_tabs := by
        refine hstrict j ?_ c hc
        simpa [leastLoadedAux] using hj
      omega
  | cons b rest ih =>
    intro bs bestIdx cur bestVal hdrop hlt hbest hle hstrict
    have hcurb : bs[cur]? = some b := by
      have h0 : (bs.drop cur)[0]? = some b := by rw [hdrop]; simp
      rwa [List.getElem?_drop, Nat.add_zero] at h0
    have hdrop2 : bs.drop (cur + 1) = rest := by
      have h1 : (bs.drop cur).tail = rest := by rw [hdrop]; rfl
      rw [← h1, List.tail_drop]
    by_cases hb : b.active_tabs < bestVal
    · have hres : leastLoadedAux bestIdx bestVal cur (b :: rest) =
          leastLoadedAux cur b.active_tabs (cur + 1) rest := by
        simp [leastLoadedAux, hb]
      rw [hres]
      refine ih bs cur (cur + 1) b.active_tabs hdrop2 (Nat.lt_succ_self cur)
        ⟨b, hcurb, rfl⟩ ?_ ?_
      · intro k hk c hc
        rcases Nat.lt_succ_iff_lt_or_eq.mp hk with hk2 | hk2
        · have := hle k hk2 c hc
          omega
        · subst hk2
          rw [hcurb] at hc
          have hcb : c = b := (Option.some.inj hc).symm
          subst hcb
          exact le_rfl
      · intro k hk c hc
        have := hle k hk c hc
        omega
    · have hres : leastLoadedAux bestIdx bestVal cur (b :: rest) =
          leastLoadedAux bestIdx bestVal (cur + 1) rest := by
        simp [leastLoadedAux, hb]
      rw [hres]
      refine ih bs bestIdx (cur + 1) bestVal hdrop2 (Nat.lt_succ_of_lt hlt)
        hbest ?_ hstrict
      intro k hk c hc
      rcases Nat.lt_succ_iff_lt_or_eq.mp hk with hk2 | hk2
      · exact hle k hk2 c hc
      · subst hk2
        rw [hcurb] at hc
        have hcb : c = b := (Option.some.inj hc).symm
        subst hcb
        omega

/-- C6: instance selection follows exactly the spec's order for every pool
state: (1) return the first instance in creation order with
`active_tabs < max_tabs_per_browser`; (2) otherwise, if autoscale is on
and the pool is below `max_browsers`, decide to create a new instance;
(3) otherwise fall back to the instance with the minimum `active_tabs`
(the earliest such index, matching Python's `min`). -/
theorem selection_follows_spec_order (m : Manager) :
    (∀ i, getAvailableBrowser m = Selection.existing i ↔
       ∃ b, m.browsers[i]? = some b ∧ b.active_tabs < (m.max_tabs_per_browser : Int) ∧
         ∀ j, j < i → ∀ c, m.browsers[j]? = some c →
           (m.max_tabs_per_browser : Int) ≤ c.active_tabs) ∧
    (getAvailableBrowser m = Selection.scaleUp ↔
       ((∀ c ∈ m.browsers, (m.max_tabs_per_browser : Int) ≤ c.active_tabs) ∧
        m.auto_scale = true ∧ m.browsers.length < m.max_browsers)) ∧
    (∀ i, getAvailableBrowser m = Selection.leastLoaded i →
       (∀ c ∈ m.browsers, (m.max_tabs_per_browser : Int) ≤ c.active_tabs) ∧
       ¬ (m.auto_scale = true ∧ m.browsers.length < m.max_browsers) ∧
       ∃ b, m.browsers[i]? = some b ∧
         (∀ c ∈ m.browsers, b.active_tabs ≤ c.active_tabs) ∧
         (∀ j, j < i → ∀ c, m.browsers[j]? = some c → b.active_tabs < c.active_tabs)) ∧
    (m.browsers ≠ [] →
       (∀ c ∈ m.browsers, (m.max_tabs_per_browser : Int) ≤ c.active_tabs) →
       ¬ (m.auto_scale = true ∧ m.browsers.length < m.max_browsers) →
       ∃ i, getAvailableBrowser m = Selection.leastLoaded i) := by
  cases hfa : findAvailable m.max_tabs_per_browser m.browsers with
  | some k =>
    have hsel : getAvailableBrowser m = Selection.existing k := by
      simp [getAvailableBrowser, hfa]
    refine ⟨?_, ?_, ?_, ?_⟩
    · intro i
      rw [hsel, Selection.existing.injEq]
      constructor
      · rintro rfl
        exact (findAvailable_some_iff _ _ _).mp hfa
      · intro hspec
        have h2 := (findAvailable_some_iff _ _ i).mpr hspec
        rw [hfa] at h2
        exact Option.some.inj h2
    · rw [hsel]
      constructor
      · intro h; exact Selection.noConfusion h
      · rintro ⟨hall, _, _⟩
        have h2 := (findAvailable_none_iff _ _).mpr hall
        rw [hfa] at h2
        exact Option.noConfusion h2
    · intro i h
      rw [hsel] at h
      exact Selection.noConfusion h
    · intro _ hall _
      have h2 := (findAvailable_none_iff _ _).mpr hall
      rw [hfa] at h2
      exact Option.noConfusion h2
  | none =>
    have hall : ∀ c ∈ m.browsers, (m.max_tabs_per_browser : Int) ≤ c.active_tabs :=
      (findAvailable_none_iff _ _).mp hfa
    by_cases hsc : m.auto_scale = true ∧ m.browsers.length < m.max_browsers
    · have hsel : getAvailableBrowser m = Selection.scaleUp := by
        simp only [getAvailableBrowser, hfa]
        rw [if_pos hsc]
      refine ⟨?_, ?_, ?_, ?_⟩
      · intro i
        rw [hsel]
        constructor
        · intro h; exact Selection.noConfusion h
        · intro hspec
          have h2 := (findAvailable_some_iff _ _ i).mpr hspec
          rw [hfa] at h2
          exact Option.noConfusion h2
      · rw [hsel]
        exact ⟨fun _ => ⟨hall, hsc⟩, fun _ => rfl⟩
      · intro i h
        rw [hsel] at h
        exact Selection.noConfusion h
      · intro _ _ hnsc
        exact absurd hsc hnsc
    · cases hbs : m.browsers with
      | nil =>
        have hsel : getAvailableBrowser m = Selection.noBrowser := by
          simp only [getAvailableBrowser, hfa]
          rw [if_neg hsc, hbs]
        rw [hbs] at hfa hall hsc
        refine ⟨?_, ?_, ?_, ?_⟩
        · intro i
          rw [hsel]
          constructor
          · intro h; exact Selection.noConfusion h
          · intro hspec
            have h2 := (findAvailable_some_iff _ _ i).mpr hspec
            rw [hfa] at h2
            exact Option.noConfusion h2
        · rw [hsel]
          constructor
          · intro h; exact Selection.noConfusion h
          · rintro ⟨_, hsc2⟩
            exact absurd hsc2 hsc
        · intro i h
          rw [hsel] at h
          exact Selection.noConfusion h
        · intro hne _ _
          exact absurd rfl hne
      | cons b rest =>
        have hsel : getAvailableBrowser m =
            Selection.leastLoaded (leastLoadedAux 0 b.active_tabs 1 rest) := by
          simp only [getAvailableBrowser, hfa]
          rw [if_neg hsc, hbs]
        rw [hbs] at hfa hall hsc
        refine ⟨?_, ?_, ?_, ?_⟩
        · intro i
          rw [hsel]
          constructor
          · intro h; exact Selection.noConfusion h
          · intro hspec
            have h2 := (findAvailable_some_iff _ _ i).mpr hspec
            rw [hfa] at h2
            exact Option.noConfusion h2
        · rw [hsel]
          constructor
          · intro h; exact Selection.noConfusion h
          · rintro ⟨_, hsc2⟩
            exact absurd hsc2 hsc
        · intro i h
          rw [hsel] at h
          have hik : leastLoadedAux 0 b.active_tabs 1 rest = i := by
            have := Selection.leastLoaded.injEq (leastLoadedAux 0 b.active_tabs 1 rest) i
            rw [← this]
            exact h
          refine ⟨hall, hsc, ?_⟩
          rw [← hik]
          refine leastLoadedAux_spec rest (b :: rest) 0 1 b.active_tabs (by simp)
            Nat.one_pos ⟨b, by simp, rfl⟩ ?_ ?_
          · intro kk hkk c hc
            have hk0 : kk = 0 := by omega
            subst hk0
            rw [List.getElem?_cons_zero] at hc
            rw [← Option.some.inj hc]
          · intro kk hkk c hc
            exact absurd hkk (Nat.not_lt_zero kk)
        · intro _ _ _
          exact ⟨leastLoadedAux 0 b.active_tabs 1 rest, hsel⟩

/-- Witness for `selection_follows_spec_order`: on the saturated
three-instance pool with loads 2,1,1 and autoscale off, the selection is
the least-loaded fallback at index 1 — the earliest minimum. -/
theorem selection_follows_spec_order_witness :
    (∀ c ∈ mgrSaturated.browsers,
        (mgrSaturated.max_tabs_per_browser : Int) ≤ c.active_tabs) ∧
    ¬ (mgrSaturated.auto_scale = true ∧
        mgrSaturated.browsers.length < mgrSaturated.max_browsers) ∧
    ∃ b, mgrSaturated.browsers[1]? = some b ∧
      (∀ c ∈ mgrSaturated.browsers, b.active_tabs ≤ c.active_tabs) ∧
      (∀ j, j < 1 → ∀ c, mgrSaturated.browsers[j]? = some c →
        b.active_tabs < c.active_tabs) :=
  (selection_follows_spec_order mgrSaturated).2.2.1 1 (by decide)

/-!  ### Field preservation of the step primitives -/

lemma createBrowserInstance_flags (m : Manager) (now : Nat) :
    (createBrowserInstance m now).playwright = m.playwright ∧
    (createBrowserInstance m now).cleanup_task = m.cleanup_task ∧
    (createBrowserInstance m now).reaper_running = m.reaper_running ∧
    (createBrowserInstance m now).reaper_starts = m.reaper_starts ∧
    (createBrowserInstance m now).min_browsers = m.min_browsers ∧
    (createBrowserInstance m now).max_browsers = m.max_browsers ∧
    (createBrowserInstance m now).max_tabs_per_browser = m.max_tabs_per_browser ∧
    (createBrowserInstance m now).auto_scale = m.auto_scale ∧
    (createBrowserInstance m now).browser_idle_timeout = m.browser_idle_timeout ∧
    (createBrowserInstance m now).browsers.length = m.browsers.length + 1 := by
  simp [createBrowserInstance]

lemma iterate_create_flags (now : Nat) (n : Nat) (m : Manager) :
    ((fun s => createBrowserInstance s now)^[n] m).playwright = m.playwright ∧
    ((fun s => createBrowserInstance s now)^[n] m).cleanup_task = m.cleanup_task ∧
    ((fun s => createBrowserInstance s now)^[n] m).reaper_running = m.reaper_running ∧
    ((fun s => createBrowserInstance s now)^[n] m).reaper_starts = m.reaper_starts ∧
    ((fun s => createBrowserInstance s now)^[n] m).browsers.length =
      m.browsers.length + n := by
  induction n generalizing m with
  | zero => simp
  | succ n ih =>
    rw [Function.iterate_succ_apply]
    rcases ih (createBrowserInstance m now) with ⟨h1, h2, h3, h4, h5⟩
    rcases createBrowserInstance_flags m now with ⟨g1, g2, g3, g4, _, _, _, _, _, g10⟩
    refine ⟨?_, ?_, ?_, ?_, ?_⟩
    · rw [h1, g1]
    · rw [h2, g2]
    · rw [h3, g3]
    · rw [h4, g4]
    · rw [h5, g10]; omega

lemma releaseStep_flags (m : Manager) (i : Nat) (s : Bool) :
    (releaseStep m i s).playwright = m.playwright ∧
    (releaseStep m i s).cleanup_task = m.cleanup_task ∧
    (releaseStep m i s).reaper_running = m.reaper_running ∧
    (releaseStep m i s).reaper_starts = m.reaper_starts := by
  cases hb : m.browsers[i]? <;> simp [releaseStep, hb]

lemma checkoutBookkeeping_flags (m : Manager) (i : Nat) (now : Nat) :
    (checkoutBookkeeping m i now).playwright = m.playwright ∧
    (checkoutBookkeeping m i now).cleanup_task = m.cleanup_task ∧
    (checkoutBookkeeping m i now).reaper_running = m.reaper_running ∧
    (checkoutBookkeeping m i now).reaper_starts = m.reaper_starts := by
  cases hb : m.browsers[i]? <;> simp [checkoutBookkeeping, hb]

lemma runSession_flags {m m2 : Manager} {i : Nat} {o : SessionOutcome} {now : Nat}
    (h : runSession m i o now = some m2) :
    m2.playwright = m.playwright ∧ m2.cleanup_task = m.cleanup_task ∧
    m2.reaper_running = m.reaper_running ∧ m2.reaper_starts = m.reaper_starts := by
  rcases hb : m.browsers[i]? with _ | b
  · simp [runSession, acquireSlot, hb] at h
  · by_cases hs : b.semaphore = 0
    · simp [runSession, acquireSlot, hb, hs] at h
    · have hacq := acquireSlot_eq hb hs
      cases o with
      | setupFail =>
        simp only [runSession, hacq, Option.map_some'] at h
        rw [← Option.some.inj h]
        exact releaseStep_flags _ i false
      | ok =>
        simp only [runSession, hacq, Option.map_some'] at h
        rw [← Option.some.inj h]
        rcases releaseStep_flags (checkoutBookkeeping
          { m with browsers := m.browsers.set i { b with semaphore := b.semaphore - 1 } }
          i now) i true with ⟨r1, r2, r3, r4⟩
        rcases checkoutBookkeeping_flags
          { m with browsers := m.browsers.set i { b with semaphore := b.semaphore - 1 } }
          i now with ⟨c1, c2, c3, c4⟩
        exact ⟨by rw [r1, c1], by rw [r2, c2], by rw [r3, c3], by rw [r4, c4]⟩
      | bodyFail =>
        simp only [runSession, hacq, Option.map_some'] at h
        rw [← Option.some.inj h]
        rcases releaseStep_flags (checkoutBookkeeping
          { m with browsers := m.browsers.set i { b with semaphore := b.semaphore - 1 } }
          i now) i false with ⟨r1, r2, r3, r4⟩
        rcases checkoutBookkeeping_flags
          { m with browsers := m.browsers.set i { b with semaphore := b.semaphore - 1 } }
          i now with ⟨c1, c2, c3, c4⟩
        exact ⟨by rw [r1, c1], by rw [r2, c2], by rw [r3, c3], by rw [r4, c4]⟩

lemma initManager_flags (m : Manager) (now : Nat) :
    (m.playwright = true → initManager m now = m) ∧
    (m.playwright = false → m.cleanup_task = true →
       (initManager m now).cleanup_task = true ∧
       (initManager m now).reaper_running = m.reaper_running ∧
       (initManager m now).reaper_starts = m.reaper_starts ∧
       (initManager m now).browsers.length = m.browsers.length + m.min_browsers ∧
       (initManager m now).playwright = true) ∧
    (m.playwright = false → m.cleanup_task = false →
       (initManager m now).cleanup_task = true ∧
       (initManager m now).reaper_running = true ∧
       (initManager m now).reaper_starts = m.reaper_starts + 1 ∧
       (initManager m now).browsers.length = m.browsers.length + m.min_browsers ∧
       (initManager m now).playwright = true) := by
  refine ⟨fun hpw => by simp [initManager, hpw], ?_, ?_⟩
  · intro hpw hct
    rcases iterate_create_flags now m.min_browsers { m with playwright := true }
      with ⟨h1, h2, h3, h4, h5⟩
    have hct2 : ((fun s => createBrowserInstance s now)^[m.min_browsers]
        { m with playwright := true }).cleanup_task = true := by rw [h2]; exact hct
    have hred : initManager m now =
        (fun s => createBrowserInstance s now)^[m.min_browsers]
          { m with playwright := true } := by
      simp only [initManager, hpw, Bool.false_eq_true, if_false]
      rw [if_pos hct2]
    rw [hred]
    exact ⟨hct2, h3, h4, by simpa using h5, by simpa using h1⟩
  · intro hpw hct
    rcases iterate_create_flags now m.min_browsers { m with playwright := true }
      with ⟨h1, h2, h3, h4, h5⟩
    have hct2 : ((fun s => createBrowserInstance s now)^[m.min_browsers]
        { m with playwright := true }).cleanup_task = false := by rw [h2]; exact hct
    have hred : initManager m now =
        { (fun s => createBrowserInstance s now)^[m.min_browsers]
            { m with playwright := true } with
          cleanup_task := true, reaper_running := true,
          reaper_starts := ((fun s => createBrowserInstance s now)^[m.min_browsers]
            { m with playwright := true }).reaper_starts + 1 } := by
      simp only [initManager, hpw, Bool.false_eq_true, if_false]
      rw [if_neg (by rw [hct2]; exact Bool.false_ne_true)]
    rw [hred]
    refine ⟨rfl, rfl, ?_, ?_, ?_⟩
    · show ((fun s => createBrowserInstance s now)^[m.min_browsers]
        { m with playwright := true }).reaper_starts + 1 = m.reaper_starts + 1
      rw [h4]
    · show ((fun s => createBrowserInstance s now)^[m.min_browsers]
        { m with playwright := true }).browsers.length =
        m.browsers.length + m.min_browsers
      simpa using h5
    · show ((fun s => createBrowserInstance s now)^[m.min_browsers]
        { m with playwright := true }).playwright = true
      simpa using h1

lemma scaleBrowsers_flags (m : Manager) (t : Int) (now : Nat) :
    (scaleBrowsers m t now).1.playwright = m.playwright ∧
    (scaleBrowsers m t now).1.cleanup_task = m.cleanup_task ∧
    (scaleBrowsers m t now).1.reaper_running = m.reaper_running ∧
    (scaleBrowsers m t now).1.reaper_starts = m.reaper_starts := by
  simp only [scaleBrowsers]
  split_ifs with h1 h2 h3 h4
  · exact ⟨rfl, rfl, rfl, rfl⟩
  · exact ⟨rfl, rfl, rfl, rfl⟩
  · rcases iterate_create_flags now ((t - (m.browsers.length : Int)).toNat) m
      with ⟨g1, g2, g3, g4, _⟩
    exact ⟨g1, g2, g3, g4⟩
  · exact ⟨rfl, rfl, rfl, rfl⟩
  · exact ⟨rfl, rfl, rfl, rfl⟩

lemma cleanupTick_flags (m : Manager) (now : Nat) :
    (cleanupTick m now).playwright = m.playwright ∧
    (cleanupTick m now).cleanup_task = m.cleanup_task ∧
    (cleanupTick m now).reaper_running = m.reaper_running ∧
    (cleanupTick m now).reaper_starts = m.reaper_starts := by
  simp [cleanupTick]

lemma getPage_flags {m m2 : Manager} {o : SessionOutcome} {now : Nat}
    (h : getPage m o now = some m2) :
    m2.cleanup_task = (initManager m now).cleanup_task ∧
    m2.reaper_running = (initManager m now).reaper_running ∧
    m2.reaper_starts = (initManager m now).reaper_starts := by
  simp only [getPage] at h
  cases hsel : getAvailableBrowser (initManager m now) with
  | existing i =>
    rw [hsel] at h
    exact (runSession_flags h).2
  | scaleUp =>
    rw [hsel] at h
    rcases runSession_flags h with ⟨_, r2, r3, r4⟩
    rcases createBrowserInstance_flags (initManager m now) now with
      ⟨_, c2, c3, c4, _, _, _, _, _, _⟩
    exact ⟨r2.trans c2, r3.trans c3, r4.trans c4⟩
  | leastLoaded i =>
    rw [hsel] at h
    exact (runSession_flags h).2
  | noBrowser =>
    rw [hsel] at h
    exact Option.noConfusion h

lemma initManager_closed_reaper {m : Manager} (now : Nat)
    (hc : m.cleanup_task = true) (hr : m.reaper_running = false) :
    (initManager m now).cleanup_task = true ∧
    (initManager m now).reaper_running = false := by
  by_cases hpw : m.playwright = true
  · rw [(initManager_flags m now).1 hpw]
    exact ⟨hc, hr⟩
  · have hpw2 : m.playwright = false := by simpa using hpw
    rcases (initManager_flags m now).2.1 hpw2 hc with ⟨g1, g2, _, _, _⟩
    exact ⟨g1, g2.trans hr⟩

lemma applyOp_closed_reaper {m : Manager} (op : Op)
    (hc : m.cleanup_task = true) (hr : m.reaper_running = false) :
    (applyOp m op).cleanup_task = true ∧ (applyOp m op).reaper_running = false := by
  cases op with
  | start now =>
    exact initManager_closed_reaper now hc hr
  | page o now =>
    simp only [applyOp]
    cases hg : getPage m o now with
    | none => exact ⟨hc, hr⟩
    | some m2 =>
      simp only [Option.getD_some]
      rcases getPage_flags hg with ⟨g1, g2, _⟩
      rcases initManager_closed_reaper now hc hr with ⟨i1, i2⟩
      exact ⟨g1.trans i1, g2.trans i2⟩
  | session i o now =>
    simp only [applyOp]
    cases hg : runSession m i o now with
    | none => exact ⟨hc, hr⟩
    | some m2 =>
      simp only [Option.getD_some]
      rcases runSession_flags hg with ⟨_, g2, g3, _⟩
      exact ⟨g2.trans hc, g3.trans hr⟩
  | reaperTick now =>
    simp only [applyOp]
    rw [if_neg (by rw [hr]; exact Bool.false_ne_true)]
    exact ⟨hc, hr⟩
  | scale t now =>
    rcases scaleBrowsers_flags m t now with ⟨_, g2, g3, _⟩
    exact ⟨g2.trans hc, g3.trans hr⟩
  | shutdown =>
    exact ⟨by simpa [applyOp, closeManager] using hc, by simp [applyOp, closeManager]⟩

lemma runOps_closed_reaper {m : Manager} (ops : List Op)
    (hc : m.cleanup_task = true) (hr : m.reaper_running = false) :
    (runOps m ops).cleanup_task = true ∧ (runOps m ops).reaper_running = false := by
  induction ops generalizing m with
  | nil => exact ⟨hc, hr⟩
  | cons op rest ih =>
    rcases applyOp_closed_reaper op hc hr with ⟨h1, h2⟩
    exact ih h1 h2

lemma initManager_reaper_once {m : Manager} (now : Nat)
    (h1 : m.reaper_starts ≤ 1) (h2 : m.cleanup_task = false → m.reaper_starts = 0) :
    (initManager m now).reaper_starts ≤ 1 ∧
      ((initManager m now).cleanup_task = false → (initManager m now).reaper_starts = 0) := by
  by_cases hpw : m.playwright = true
  · rw [(initManager_flags m now).1 hpw]
    exact ⟨h1, h2⟩
  · have hpw2 : m.playwright = false := by simpa using hpw
    by_cases hct : m.cleanup_task = true
    · rcases (initManager_flags m now).2.1 hpw2 hct with ⟨c1, _, c3, _, _⟩
      refine ⟨c3.symm ▸ h1, fun hf => ?_⟩
      rw [c1] at hf
      exact absurd hf (by simp)
    · have hct2 : m.cleanup_task = false := by simpa using hct
      rcases (initManager_flags m now).2.2 hpw2 hct2 with ⟨c1, _, c3, _, _⟩
      refine ⟨?_, fun hf => ?_⟩
      · rw [c3, h2 hct2]
      · rw [c1] at hf
        exact absurd hf (by simp)

lemma applyOp_reaper_once {m : Manager} (op : Op)
    (h1 : m.reaper_starts ≤ 1) (h2 : m.cleanup_task = false → m.reaper_starts = 0) :
    (applyOp m op).reaper_starts ≤ 1 ∧
      ((applyOp m op).cleanup_task = false → (applyOp m op).reaper_starts = 0) := by
  cases op with
  | start now => exact initManager_reaper_once now h1 h2
  | page o now =>
    simp only [applyOp]
    cases hg : getPage m o now with
    | none => exact ⟨h1, h2⟩
    | some m2 =>
      simp only [Option.getD_some]
      rcases getPage_flags hg with ⟨g1, _, g3⟩
      rcases initManager_reaper_once now h1 h2 with ⟨i1, i2⟩
      exact ⟨g3.symm ▸ i1, fun hf => g3.symm ▸ i2 (g1 ▸ hf)⟩
  | session i o now =>
    simp only [applyOp]
    cases hg : runSession m i o now with
    | none => exact ⟨h1, h2⟩
    | some m2 =>
      simp only [Option.getD_some]
      rcases runSession_flags hg with ⟨_, g2, _, g4⟩
      exact ⟨g4.symm ▸ h1, fun hf => g4.symm ▸ h2 (g2 ▸ hf)⟩
  | reaperTick now =>
    simp only [applyOp]
    by_cases hrun : m.reaper_running = true
    · rw [if_pos hrun]
      rcases cleanupTick_flags m now with ⟨_, g2, _, g4⟩
      exact ⟨g4.symm ▸ h1, fun hf => g4.symm ▸ h2 (g2 ▸ hf)⟩
    · rw [if_neg hrun]
      exact ⟨h1, h2⟩
  | scale t now =>
    rcases scaleBrowsers_flags m t now with ⟨_, g2, _, g4⟩
    exact ⟨g4.symm ▸ h1, fun hf => g4.symm ▸ h2 (g2 ▸ hf)⟩
  | shutdown =>
    refine ⟨by simpa [applyOp, closeManager] using h1, fun hf => ?_⟩
    have : m.cleanup_task = false := by simpa [applyOp, closeManager] using hf
    simpa [applyOp, closeManager] using h2 this

lemma runOps_reaper_once {m : Manager} (ops : List Op)
    (h1 : m.reaper_starts ≤ 1) (h2 : m.cleanup_task = false → m.reaper_starts = 0) :
    (runOps m ops).reaper_starts ≤ 1 := by
  induction ops generalizing m with
  | nil => exact h1
  | cons op rest ih =>
    rcases applyOp_reaper_once op h1 h2 with ⟨g1, g2⟩
    exact ih g1 g2

/-- C7: `initialize` is idempotent and, because its whole body holds the
pool lock, concurrent invocations serialize into consecutive runs, which
this idempotence covers: a second call changes nothing, a call on an
uninitialized manager creates exactly `min_browsers` instances, and over
any operation sequence from a freshly constructed manager the reaper task
is started at most once in the manager's lifetime. -/
theorem init_idempotent_and_exactly_min
    (m : Manager) (now now2 : Nat)
    (maxTabs maxB minB timeout : Nat) (auto : Bool) (ops : List Op) :
    initManager (initManager m now) now2 = initManager m now ∧
    (m.playwright = true → initManager m now = m) ∧
    (m.playwright = false →
       (initManager m now).browsers.length = m.browsers.length + m.min_browsers) ∧
    (m.playwright = false → m.cleanup_task = false →
       (initManager m now).reaper_starts = m.reaper_starts + 1 ∧
       (initManager m now).cleanup_task = true) ∧
    (runOps (mkManager maxTabs maxB minB auto timeout) ops).reaper_starts ≤ 1 := by
  have hpw2 : m.playwright = false → (initManager m now).playwright = true := by
    intro hpw
    by_cases hct : m.cleanup_task = true
    · exact ((initManager_flags m now).2.1 hpw hct).2.2.2.2
    · have hct2 : m.cleanup_task = false := by simpa using hct
      exact ((initManager_flags m now).2.2 hpw hct2).2.2.2.2
  refine ⟨?_, (initManager_flags m now).1, ?_, ?_, ?_⟩
  · by_cases hpw : m.playwright = true
    · rw [(initManager_flags m now).1 hpw, (initManager_flags m now2).1 hpw]
    · have hpw3 : m.playwright = false := by simpa using hpw
      exact (initManager_flags (initManager m now) now2).1 (hpw2 hpw3)
  · intro hpw
    by_cases hct : m.cleanup_task = true
    · exact ((initManager_flags m now).2.1 hpw hct).2.2.2.1
    · have hct2 : m.cleanup_task = false := by simpa using hct
      exact ((initManager_flags m now).2.2 hpw hct2).2.2.2.1
  · intro hpw hct
    rcases (initManager_flags m now).2.2 hpw hct with ⟨c1, _, c3, _, _⟩
    exact ⟨c3, c1⟩
  · refine runOps_reaper_once ops ?_ ?_
    · show (0 : Nat) ≤ 1
      omega
    · intro _
      rfl

/-- Witness for `init_idempotent_and_exactly_min`: the main.py manager,
freshly constructed, then once initialized; an operation sequence that
closes and re-initializes still starts the reaper at most once. -/
theorem init_idempotent_and_exactly_min_witness :
    initManager (initManager mainManager 0) 1 = initManager mainManager 0 ∧
    (initManager mainManager 0).browsers.length =
      mainManager.browsers.length + mainManager.min_browsers ∧
    (initManager mainManager 0).reaper_starts = mainManager.reaper_starts + 1 ∧
    (initManager mainManager 0).cleanup_task = true ∧
    (runOps (mkManager 5 3 1 true 300)
      [Op.start 0, Op.page SessionOutcome.ok 1, Op.shutdown,
       Op.start 2, Op.page SessionOutcome.bodyFail 3]).reaper_starts ≤ 1 := by
  have h := init_idempotent_and_exactly_min mainManager 0 1 5 3 1 300 true
    [Op.start 0, Op.page SessionOutcome.ok 1, Op.shutdown,
     Op.start 2, Op.page SessionOutcome.bodyFail 3]
  exact ⟨h.1, h.2.2.1 (by decide), (h.2.2.2.1 (by decide) (by decide)).1,
         (h.2.2.2.1 (by decide) (by decide)).2, h.2.2.2.2⟩

/-- C10 (implicit): `close()` cancels the reaper task but leaves the
`cleanup_task` attribute set, so every later `initialize` — including the
transparent re-initialization a later `get_page` performs — skips starting
a new reaper; after a close, over any sequence of operations, the reaper
never runs again and a reaper tick is a no-op, so no instance is ever
idle-evicted after a close/re-initialize cycle. -/
theorem reaper_never_restarts_after_close
    (m : Manager) (ops : List Op) (now : Nat) (hc : m.cleanup_task = true) :
    (closeManager m).cleanup_task = true ∧
    (runOps (closeManager m) ops).reaper_running = false ∧
    applyOp (runOps (closeManager m) ops) (Op.reaperTick now) =
      runOps (closeManager m) ops := by
  have hc2 : (closeManager m).cleanup_task = true := by
    simpa [closeManager] using hc
  have hr2 : (closeManager m).reaper_running = false := by simp [closeManager]
  rcases runOps_closed_reaper ops hc2 hr2 with ⟨h1, h2⟩
  refine ⟨hc2, h2, ?_⟩
  simp only [applyOp]
  rw [if_neg (by rw [h2]; exact Bool.false_ne_true)]

/-- Witness for `reaper_never_restarts_after_close`: close the initialized
two-instance pool, re-initialize through `start` and run a page; the
reaper stays cancelled and a tick at time 9999 changes nothing. -/
theorem reaper_never_restarts_after_close_witness :
    (closeManager mgrTwoFull).cleanup_task = true ∧
    (runOps (closeManager mgrTwoFull)
      [Op.start 5, Op.page SessionOutcome.ok 6]).reaper_running = false ∧
    applyOp (runOps (closeManager mgrTwoFull)
      [Op.start 5, Op.page SessionOutcome.ok 6]) (Op.reaperTick 9999) =
      runOps (closeManager mgrTwoFull) [Op.start 5, Op.page SessionOutcome.ok 6] :=
  reaper_never_restarts_after_close mgrTwoFull
    [Op.start 5, Op.page SessionOutcome.ok 6] 9999 (by decide)

lemma mem_iterate_create {b : BrowserInstance} (now : Nat) :
    ∀ (n : Nat) (m : Manager), b ∈ m.browsers →
      b ∈ ((fun s => createBrowserInstance s now)^[n] m).browsers := by
  intro n
  induction n with
  | zero => intro m hb; simpa using hb
  | succ n ih =>
    intro m hb
    rw [Function.iterate_succ_apply]
    refine ih (createBrowserInstance m now) ?_
    simp only [createBrowserInstance]
    exact List.mem_append_left _ hb

lemma mem_foldl_erase {b : BrowserInstance} :
    ∀ (marked bs : List BrowserInstance), b ∈ bs →
      (∀ x ∈ marked, x.active_tabs = 0) → b.active_tabs ≠ 0 →
      b ∈ marked.foldl (fun l x => l.erase x) bs := by
  intro marked
  induction marked with
  | nil => intro bs hb _ _; simpa using hb
  | cons x rest ih =>
    intro bs hb hall hba
    have hbx : b ≠ x := by
      intro he
      exact hba (he ▸ hall x (List.mem_cons_self x rest))
    simp only [List.foldl_cons]
    exact ih (bs.erase x) ((List.mem_erase_of_ne hbx).mpr hb)
      (fun y hy => hall y (List.mem_cons_of_mem x hy)) hba

lemma length_foldl_erase :
    ∀ (marked bs : List BrowserInstance), List.Subperm marked bs →
      (marked.foldl (fun l x => l.erase x) bs).length = bs.length - marked.length := by
  intro marked
  induction marked with
  | nil => intro bs _; simp
  | cons x rest ih =>
    intro bs hsub
    have hx : x ∈ bs := hsub.subset (List.mem_cons_self x rest)
    have hrest : List.Subperm rest (bs.erase x) := by
      have h2 := hsub.erase x
      rwa [List.erase_cons_head] at h2
    simp only [List.foldl_cons]
    rw [ih (bs.erase x) hrest, List.length_erase_of_mem hx]
    simp only [List.length_cons]
    omega

/-- C9: the manual scale endpoint rejects any target below `min_browsers`
or above `max_browsers` with an error response and no state change; a
scale-down removes only instances with `active_tabs == 0` drawn from the
tail `browsers[target:]` — a busy instance is never force-closed — and
when fewer idle instances exist than requested, only those idle ones are
closed (the removed count equals the number of idle tail instances). -/
theorem scale_rejects_and_closes_only_idle (m : Manager) (target : Int) (now : Nat) :
    (target < (m.min_browsers : Int) →
       scaleBrowsers m target now = (m, ScaleAction.errorBelowMin)) ∧
    ((m.min_browsers : Int) ≤ target → (m.max_browsers : Int) < target →
       scaleBrowsers m target now = (m, ScaleAction.errorAboveMax)) ∧
    (∀ b ∈ m.browsers, b.active_tabs ≠ 0 →
       b ∈ (scaleBrowsers m target now).1.browsers) ∧
    ((scaleBrowsers m target now).2 = ScaleAction.scaledDown →
       (scaleBrowsers m target now).1.browsers.length =
         m.browsers.length -
           ((m.browsers.drop target.toNat).filter
             (fun b => decide (b.active_tabs = 0))).length) := by
  by_cases h1 : target < (m.min_browsers : Int)
  · have heq : scaleBrowsers m target now = (m, ScaleAction.errorBelowMin) := by
      simp [scaleBrowsers, h1]
    refine ⟨fun _ => heq, fun hmin _ => absurd h1 (not_lt.mpr hmin), ?_, ?_⟩
    · intro b hb _
      rw [heq]
      exact hb
    · intro hdown
      rw [heq] at hdown
      exact ScaleAction.noConfusion hdown
  · by_cases h2 : target > (m.max_browsers : Int)
    · have heq : scaleBrowsers m target now = (m, ScaleAction.errorAboveMax) := by
        simp [scaleBrowsers, h1, h2]
      refine ⟨fun hlt => absurd hlt h1, fun _ _ => heq, ?_, ?_⟩
      · intro b hb _
        rw [heq]
        exact hb
      · intro hdown
        rw [heq] at hdown
        exact ScaleAction.noConfusion hdown
    · by_cases h3 : target > (m.browsers.length : Int)
      · have heq : scaleBrowsers m target now =
            ((fun s => createBrowserInstance s now)^[(target - (m.browsers.length : Int)).toNat] m,
             ScaleAction.scaledUp) := by
          simp [scaleBrowsers, h1, h2, h3]
        refine ⟨fun hlt => absurd hlt h1, fun _ hgt => absurd hgt (not_lt.mpr (not_lt.mp h2)), ?_, ?_⟩
        · intro b hb _
          rw [heq]
          exact mem_iterate_create now _ m hb
        · intro hdown
          rw [heq] at hdown
          exact ScaleAction.noConfusion hdown
      · by_cases h4 : target < (m.browsers.length : Int)
        · have heq : scaleBrowsers m target now =
              ({ m with browsers := ((m.browsers.drop target.toNat).filter (fun b => decide (b.active_tabs = 0))).foldl (fun bs b => bs.erase b) m.browsers },
               ScaleAction.scaledDown) := by
            simp [scaleBrowsers, h1, h2, h3, h4]
          have hallidle : ∀ x ∈ (m.browsers.drop target.toNat).filter
              (fun b => decide (b.active_tabs = 0)), x.active_tabs = 0 := by
            intro x hx
            exact of_decide_eq_true (List.mem_filter.mp hx).2
          refine ⟨fun hlt => absurd hlt h1,
                  fun _ hgt => absurd hgt (not_lt.mpr (not_lt.mp h2)), ?_, ?_⟩
          · intro b hb hba
            rw [heq]
            exact mem_foldl_erase _ m.browsers hb hallidle hba
          · intro _
            rw [heq]
            refine length_foldl_erase _ m.browsers ?_
            exact ((List.filter_sublist _).trans (List.drop_sublist _ _)).subperm
        · have hcur : target = (m.browsers.length : Int) := by omega
          have heq : scaleBrowsers m target now = (m, ScaleAction.noChange) := by
            simp [scaleBrowsers, h1, h2, h3, h4]
          refine ⟨fun hlt => absurd hlt h1,
                  fun _ hgt => absurd hgt (not_lt.mpr (not_lt.mp h2)), ?_, ?_⟩
          · intro b hb _
            rw [heq]
            exact hb
          · intro hdown
            rw [heq] at hdown
            exact ScaleAction.noConfusion hdown

/-- Witness for `scale_rejects_and_closes_only_idle`: scaling the
one-busy-two-idle pool down to 1 keeps the busy instance. -/
theorem scale_rejects_and_closes_only_idle_witness :
    scaleBrowsers mgrMixed 0 7 = (mgrMixed, ScaleAction.errorBelowMin) ∧
    scaleBrowsers mgrMixed 5 7 = (mgrMixed, ScaleAction.errorAboveMax) ∧
    ({ id := 1, semaphore := 4, created_at := 0, last_used := 0,
       active_tabs := 1, total_requests := 2 } : BrowserInstance) ∈
      (scaleBrowsers mgrMixed 1 7).1.browsers ∧
    ((scaleBrowsers mgrMixed 1 7).2 = ScaleAction.scaledDown →
      (scaleBrowsers mgrMixed 1 7).1.browsers.length =
        mgrMixed.browsers.length -
          ((mgrMixed.browsers.drop (1 : Int).toNat).filter
            (fun b => decide (b.active_tabs = 0))).length) :=
  ⟨(scale_rejects_and_closes_only_idle mgrMixed 0 7).1 (by decide),
   (scale_rejects_and_closes_only_idle mgrMixed 5 7).2.1 (by decide) (by decide),
   (scale_rejects_and_closes_only_idle mgrMixed 1 7).2.2.1
     { id := 1, semaphore := 4, created_at := 0, last_used := 0,
       active_tabs := 1, total_requests := 2 } (by decide) (by decide),
   (scale_rejects_and_closes_only_idle mgrMixed 1 7).2.2.2⟩

lemma checkoutBookkeeping_stats {m : Manager} {i : Nat} {b : BrowserInstance}
    (hb : m.browsers[i]? = some b) (now : Nat) :
    (checkoutBookkeeping m i now).stats.total_requests = m.stats.total_requests + 1 ∧
    (checkoutBookkeeping m i now).stats.successful_requests =
      m.stats.successful_requests ∧
    (checkoutBookkeeping m i now).stats.failed_requests = m.stats.failed_requests := by
  simp [checkoutBookkeeping, hb]

lemma releaseStep_stats {m : Manager} {i : Nat} {b : BrowserInstance}
    (hb : m.browsers[i]? = some b) (success : Bool) :
    (releaseStep m i success).stats.total_requests = m.stats.total_requests ∧
    (releaseStep m i success).stats.successful_requests =
      m.stats.successful_requests + (if success then 1 else 0) ∧
    (releaseStep m i success).stats.failed_requests =
      m.stats.failed_requests + (if success then 0 else 1) ∧
    (releaseStep m i success).stats.active_tabs =
      sumActive (releaseStep m i success).browsers := by
  cases success <;> simp [releaseStep, hb]

lemma sumActive_eq_zero {bs : List BrowserInstance}
    (h : ∀ c ∈ bs, c.active_tabs = 0) : sumActive bs = 0 := by
  induction bs with
  | nil => rfl
  | cons b rest ih =>
    have hb := h b (List.mem_cons_self b rest)
    have hr := ih (fun c hc => h c (List.mem_cons_of_mem b hc))
    simp only [sumActive, List.map_cons, List.sum_cons] at *
    rw [hb, hr]
    ring

lemma iterate_create_maxTabs (now : Nat) :
    ∀ (n : Nat) (m : Manager),
      ((fun s => createBrowserInstance s now)^[n] m).max_tabs_per_browser =
        m.max_tabs_per_browser := by
  intro n
  induction n with
  | zero => intro m; rfl
  | succ n ih =>
    intro m
    rw [Function.iterate_succ_apply, ih (createBrowserInstance m now)]
    simp [createBrowserInstance]

lemma iterate_create_fresh (now : Nat) :
    ∀ (n : Nat) (m : Manager),
      (∀ c ∈ m.browsers, c.active_tabs = 0 ∧ c.semaphore = m.max_tabs_per_browser) →
      ∀ c ∈ ((fun s => createBrowserInstance s now)^[n] m).browsers,
        c.active_tabs = 0 ∧ c.semaphore = m.max_tabs_per_browser := by
  intro n
  induction n with
  | zero => intro m h; simpa using h
  | succ n ih =>
    intro m h
    rw [Function.iterate_succ_apply]
    have hmt : (createBrowserInstance m now).max_tabs_per_browser =
        m.max_tabs_per_browser := by simp [createBrowserInstance]
    have h2 : ∀ c ∈ (createBrowserInstance m now).browsers,
        c.active_tabs = 0 ∧
          c.semaphore = (createBrowserInstance m now).max_tabs_per_browser := by
      intro c hc2
      rw [hmt]
      simp only [createBrowserInstance] at hc2
      rcases List.mem_append.mp hc2 with h3 | h3
      · exact h c h3
      · rcases List.mem_singleton.mp h3 with rfl
        exact ⟨rfl, rfl⟩
    intro c hc
    have h4 := ih (createBrowserInstance m now) h2 c hc
    rwa [hmt] at h4

lemma initManager_maxTabs (m : Manager) (now : Nat) :
    (initManager m now).max_tabs_per_browser = m.max_tabs_per_browser := by
  simp only [initManager]
  split_ifs
  · rfl
  · exact iterate_create_maxTabs now m.min_browsers { m with playwright := true }
  · exact iterate_create_maxTabs now m.min_browsers { m with playwright := true }

lemma initManager_browsers_fresh {m : Manager} (now : Nat) (hpw : m.playwright = false) :
    (∀ c ∈ m.browsers, c.active_tabs = 0 ∧ c.semaphore = m.max_tabs_per_browser) →
    ∀ c ∈ (initManager m now).browsers,
      c.active_tabs = 0 ∧ c.semaphore = m.max_tabs_per_browser := by
  intro h
  simp only [initManager, hpw, Bool.false_eq_true, if_false]
  split_ifs
  · exact iterate_create_fresh now m.min_browsers { m with playwright := true } h
  · intro c hc
    exact iterate_create_fresh now m.min_browsers { m with playwright := true } h c
      (by simpa using hc)

lemma releaseStep_maxTabs (m : Manager) (i : Nat) (s : Bool) :
    (releaseStep m i s).max_tabs_per_browser = m.max_tabs_per_browser := by
  cases hb : m.browsers[i]? <;> simp [releaseStep, hb]

lemma checkoutBookkeeping_maxTabs (m : Manager) (i : Nat) (now : Nat) :
    (checkoutBookkeeping m i now).max_tabs_per_browser = m.max_tabs_per_browser := by
  cases hb : m.browsers[i]? <;> simp [checkoutBookkeeping, hb]

lemma getPage_quiescent_step {m : Manager} (hq : Quiescent m) (success : Bool) :
    ∃ m2, getPage m (if success then SessionOutcome.ok else SessionOutcome.bodyFail) 0 =
        some m2 ∧
      Quiescent m2 ∧
      m2.stats.total_requests = m.stats.total_requests + 1 ∧
      m2.stats.successful_requests =
        m.stats.successful_requests + (if success then 1 else 0) ∧
      m2.stats.failed_requests = m.stats.failed_requests + (if success then 0 else 1) ∧
      m2.stats.active_tabs = sumActive m2.browsers ∧
      m2.browsers.length = m.browsers.length ∧
      m2.max_tabs_per_browser = m.max_tabs_per_browser := by
  obtain ⟨hpw, hmt, hne, hinst⟩ := hq
  obtain ⟨b, bs, hbs⟩ : ∃ b bs, m.browsers = b :: bs := by
    cases hbs : m.browsers with
    | nil => exact absurd hbs hne
    | cons b bs => exact ⟨b, bs, rfl⟩
  have hb0 : m.browsers[0]? = some b := by rw [hbs]; simp
  rcases hinst b (hbs ▸ List.mem_cons_self b bs) with ⟨hba, hbsem⟩
  have hinit : initManager m 0 = m := (initManager_flags m 0).1 hpw
  have hblt : b.active_tabs < (m.max_tabs_per_browser : Int) := by
    rw [hba]
    exact_mod_cast Nat.pos_of_ne_zero hmt
  have hfa : findAvailable m.max_tabs_per_browser m.browsers = some 0 := by
    rw [hbs]
    simp only [findAvailable]
    rw [if_pos hblt]
  have hsel : getAvailableBrowser m = Selection.existing 0 := by
    simp [getAvailableBrowser, hfa]
  have hsem : b.semaphore ≠ 0 := by rw [hbsem]; exact hmt
  have hacq := acquireSlot_eq hb0 hsem
  have hlen0 : 0 < m.browsers.length := by rw [hbs]; simp
  have hrun : runSession m 0
      (if success then SessionOutcome.ok else SessionOutcome.bodyFail) 0 =
      some (releaseStep (checkoutBookkeeping
        { m with browsers := m.browsers.set 0 { b with semaphore := b.semaphore - 1 } }
        0 0) 0 success) := by
    cases success <;> simp [runSession, hacq]
  have hpage : getPage m
      (if success then SessionOutcome.ok else SessionOutcome.bodyFail) 0 =
      runSession m 0 (if success then SessionOutcome.ok else SessionOutcome.bodyFail) 0 := by
    simp only [getPage, hinit, hsel]
  have hb1 : ({ m with browsers := m.browsers.set 0 { b with semaphore := b.semaphore - 1 } } : Manager).browsers[0]? = some { b with semaphore := b.semaphore - 1 } :=
    getElem?_set_self_of_lt _ _ _ hlen0
  have hbc := checkoutBookkeeping_browsers hb1 0
  have hb1c : (checkoutBookkeeping
      { m with browsers := m.browsers.set 0 { b with semaphore := b.semaphore - 1 } }
      0 0).browsers[0]? =
      some { b with semaphore := b.semaphore - 1, active_tabs := b.active_tabs + 1,
                    total_requests := b.total_requests + 1, last_used := 0 } := by
    rw [hbc]
    exact getElem?_set_self_of_lt _ _ _ (by simpa using hlen0)
  have hbr := releaseStep_browsers hb1c success
  refine ⟨releaseStep (checkoutBookkeeping
    { m with browsers := m.browsers.set 0 { b with semaphore := b.semaphore - 1 } }
    0 0) 0 success, by rw [hpage, hrun], ?_, ?_, ?_, ?_, ?_, ?_, ?_⟩
  · -- Quiescent is preserved
    have hm2b : (releaseStep (checkoutBookkeeping
        { m with browsers := m.browsers.set 0 { b with semaphore := b.semaphore - 1 } }
        0 0) 0 success).browsers =
        m.browsers.set 0
          { b with semaphore := b.semaphore - 1 + 1, active_tabs := b.active_tabs + 1 - 1,
                   total_requests := b.total_requests + 1, last_used := 0 } := by
      rw [hbr, hbc]
      rw [List.set_set, List.set_set]
    have hm2mt := (releaseStep_maxTabs (checkoutBookkeeping { m with browsers := m.browsers.set 0 { b with semaphore := b.semaphore - 1 } } 0 0) 0 success).trans
      (checkoutBookkeeping_maxTabs { m with browsers := m.browsers.set 0 { b with semaphore := b.semaphore - 1 } } 0 0)
    have hm2pw := ((releaseStep_flags (checkoutBookkeeping { m with browsers := m.browsers.set 0 { b with semaphore := b.semaphore - 1 } } 0 0) 0 success).1).trans
      ((checkoutBookkeeping_flags { m with browsers := m.browsers.set 0 { b with semaphore := b.semaphore - 1 } } 0 0).1)
    refine ⟨hm2pw.trans hpw, by rw [hm2mt]; exact hmt, ?_, ?_⟩
    · rw [hm2b]
      intro hnil
      have hl := congrArg List.length hnil
      rw [List.length_set] at hl
      rw [hbs] at hl
      exact Nat.succ_ne_zero bs.length hl
    · intro c hc
      rw [hm2b] at hc
      rw [hm2mt]
      rcases List.mem_or_eq_of_mem_set hc with h3 | h3
      · exact hinst c h3
      · subst h3
        refine ⟨?_, ?_⟩
        · show b.active_tabs + 1 - 1 = 0
          omega
        · show b.semaphore - 1 + 1 = m.max_tabs_per_browser
          omega
  · rw [(releaseStep_stats hb1c success).1, (checkoutBookkeeping_stats hb1 0).1]
  · rw [(releaseStep_stats hb1c success).2.1, (checkoutBookkeeping_stats hb1 0).2.1]
  · rw [(releaseStep_stats hb1c success).2.2.1, (checkoutBookkeeping_stats hb1 0).2.2]
  · exact (releaseStep_stats hb1c success).2.2.2
  · rw [hbr, hbc]
    simp [List.length_set]
  · exact (releaseStep_maxTabs (checkoutBookkeeping { m with browsers := m.browsers.set 0 { b with semaphore := b.semaphore - 1 } } 0 0) 0 success).trans
      (checkoutBookkeeping_maxTabs { m with browsers := m.browsers.set 0 { b with semaphore := b.semaphore - 1 } } 0 0)

lemma runBodies_quiescent {m : Manager} (hq : Quiescent m) (outcomes : List Bool) :
    ∃ m2, runBodies m outcomes = some m2 ∧ Quiescent m2 ∧
      m2.stats.total_requests = m.stats.total_requests + outcomes.length ∧
      m2.stats.successful_requests =
        m.stats.successful_requests + outcomes.count true ∧
      m2.stats.failed_requests = m.stats.failed_requests + outcomes.count false ∧
      m2.max_tabs_per_browser = m.max_tabs_per_browser := by
  induction outcomes generalizing m with
  | nil => exact ⟨m, rfl, hq, by simp, by simp, by simp, rfl⟩
  | cons s rest ih =>
    rcases getPage_quiescent_step hq s with ⟨m1, hpage, hq1, ht, hs, hf, _, _, hmt⟩
    rcases ih hq1 with ⟨m2, hrb, hq2, ht2, hs2, hf2, hmt2⟩
    refine ⟨m2, ?_, hq2, ?_, ?_, ?_, hmt2.trans hmt⟩
    · simp only [runBodies]
      rw [hpage, Option.some_bind]
      exact hrb
    · rw [ht2, ht]
      simp only [List.length_cons]
      omega
    · rw [hs2, hs]
      cases s <;> simp [List.count_cons] <;> omega
    · rw [hf2, hf]
      cases s <;> simp [List.count_cons] <;> omega

lemma iterate_create_counters (now : Nat) :
    ∀ (n : Nat) (m : Manager),
      ((fun s => createBrowserInstance s now)^[n] m).stats.total_requests =
          m.stats.total_requests ∧
      ((fun s => createBrowserInstance s now)^[n] m).stats.successful_requests =
          m.stats.successful_requests ∧
      ((fun s => createBrowserInstance s now)^[n] m).stats.failed_requests =
          m.stats.failed_requests := by
  intro n
  induction n with
  | zero => intro m; exact ⟨rfl, rfl, rfl⟩
  | succ n ih =>
    intro m
    rw [Function.iterate_succ_apply]
    rcases ih (createBrowserInstance m now) with ⟨h1, h2, h3⟩
    refine ⟨h1.trans ?_, h2.trans ?_, h3.trans ?_⟩ <;> simp [createBrowserInstance]

lemma initManager_counters (m : Manager) (now : Nat) :
    (initManager m now).stats.total_requests = m.stats.total_requests ∧
    (initManager m now).stats.successful_requests = m.stats.successful_requests ∧
    (initManager m now).stats.failed_requests = m.stats.failed_requests := by
  simp only [initManager]
  split_ifs
  · exact ⟨rfl, rfl, rfl⟩
  · exact iterate_create_counters now m.min_browsers { m with playwright := true }
  · rcases iterate_create_counters now m.min_browsers { m with playwright := true }
      with ⟨h1, h2, h3⟩
    exact ⟨h1, h2, h3⟩

lemma initial_quiescent (maxTabs maxB minB timeout : Nat) (auto : Bool)
    (hmt : maxTabs ≠ 0) (hmin : minB ≠ 0) :
    Quiescent (initManager (mkManager maxTabs maxB minB auto timeout) 0) := by
  have hpw : (mkManager maxTabs maxB minB auto timeout).playwright = false := rfl
  have hct : (mkManager maxTabs maxB minB auto timeout).cleanup_task = false := rfl
  rcases (initManager_flags (mkManager maxTabs maxB minB auto timeout) 0).2.2 hpw hct
    with ⟨_, _, _, hlen, hpw2⟩
  refine ⟨hpw2, ?_, ?_, ?_⟩
  · rw [initManager_maxTabs]
    exact hmt
  · intro hnil
    apply hmin
    have h0 : (initManager (mkManager maxTabs maxB minB auto timeout) 0).browsers.length
        = 0 := by rw [hnil]; rfl
    rw [hlen] at h0
    have h1 : (mkManager maxTabs maxB minB auto timeout).min_browsers = 0 := by omega
    exact h1
  · have hfresh := initManager_browsers_fresh (m := mkManager maxTabs maxB minB auto timeout)
      0 hpw (by intro c hc; exact absurd hc (by simp [mkManager]))
    intro c hc
    have h2 := hfresh c hc
    rw [initManager_maxTabs]
    exact h2

/-- C8: `get_stats` recomputes the active-session count as the sum over
live instances — independently of the cached counter — and derives
`total_capacity = |pool| × max_tabs_per_browser` and
`success_rate = successful / total × 100` (display rounding aside); after
a run of sessions of which N complete and M raise in the body,
`total_requests = N+M`, `successful_requests = N`,
`failed_requests = M`. -/
theorem get_stats_tracks_sessions (maxTabs maxB minB timeout : Nat) (auto : Bool)
    (hmt : maxTabs ≠ 0) (hmin : minB ≠ 0) (outcomes : List Bool) :
    ∃ m2, runBodies (initManager (mkManager maxTabs maxB minB auto timeout) 0)
        outcomes = some m2 ∧
      m2.stats.total_requests = outcomes.length ∧
      m2.stats.successful_requests = outcomes.count true ∧
      m2.stats.failed_requests = outcomes.count false ∧
      (getStats m2).active_tabs = sumActive m2.browsers ∧
      (getStats m2).active_tabs = 0 ∧
      (getStats m2).total_capacity = m2.browsers.length * maxTabs ∧
      (∀ cached : Int,
        getStats { m2 with stats := { m2.stats with active_tabs := cached } } =
          getStats m2) ∧
      (outcomes ≠ [] → (getStats m2).success_rate =
        (outcomes.count true : ℚ) / (outcomes.length : ℚ) * 100) := by
  have hq0 := initial_quiescent maxTabs maxB minB timeout auto hmt hmin
  rcases runBodies_quiescent hq0 outcomes with ⟨m2, hrb, hq2, ht, hs, hf, hmt2⟩
  rcases initManager_counters (mkManager maxTabs maxB minB auto timeout) 0
    with ⟨i1, i2, i3⟩
  have htot : m2.stats.total_requests = outcomes.length := by
    rw [ht, i1]
    show 0 + outcomes.length = outcomes.length
    omega
  have hsucc : m2.stats.successful_requests = outcomes.count true := by
    rw [hs, i2]
    show 0 + outcomes.count true = outcomes.count true
    omega
  have hfail : m2.stats.failed_requests = outcomes.count false := by
    rw [hf, i3]
    show 0 + outcomes.count false = outcomes.count false
    omega
  have hzero : sumActive m2.browsers = 0 :=
    sumActive_eq_zero (fun c hc => (hq2.2.2.2 c hc).1)
  refine ⟨m2, hrb, htot, hsucc, hfail, rfl, ?_, ?_, ?_, ?_⟩
  · show sumActive m2.browsers = 0
    exact hzero
  · show m2.browsers.length * m2.max_tabs_per_browser = m2.browsers.length * maxTabs
    rw [hmt2, initManager_maxTabs]
    rfl
  · intro cached
    simp [getStats]
  · intro hne
    have hpos : 0 < outcomes.length := List.length_pos.mpr hne
    show (if m2.stats.total_requests > 0 then
        (m2.stats.successful_requests : ℚ) / (m2.stats.total_requests : ℚ) * 100
      else 0) = (outcomes.count true : ℚ) / (outcomes.length : ℚ) * 100
    rw [if_pos (by rw [htot]; exact hpos), htot, hsucc]

/-- Witness for `get_stats_tracks_sessions`: the main configuration and the
session run ok, body-error, ok — 3 started, 2 ok, 1 failed,
success rate 200/3 %. -/
theorem get_stats_tracks_sessions_witness :
    ∃ m2, runBodies (initManager (mkManager 5 3 1 true 300) 0)
        [true, false, true] = some m2 ∧
      m2.stats.total_requests = [true, false, true].length ∧
      m2.stats.successful_requests = [true, false, true].count true ∧
      m2.stats.failed_requests = [true, false, true].count false ∧
      (getStats m2).active_tabs = sumActive m2.browsers ∧
      (getStats m2).active_tabs = 0 ∧
      (getStats m2).total_capacity = m2.browsers.length * 5 ∧
      (∀ cached : Int,
        getStats { m2 with stats := { m2.stats with active_tabs := cached } } =
          getStats m2) ∧
      ([true, false, true] ≠ [] → (getStats m2).success_rate =
        (([true, false, true].count true : ℚ)) / (([true, false, true].length : ℚ)) * 100) :=
  get_stats_tracks_sessions 5 3 1 300 true (by decide) (by decide) [true, false, true]

end LinkPreview
